import Mathlib

/-!
# Hypermetadata of the Hurd ufs translator (`ufs/hyper.c`)

A shallow embedding of `get_hypermetadata`, `diskfs_set_hypermetadata`,
`copy_sblock` and `diskfs_readonly_changed`, over a byte-addressed model of the
mapped disk image and of the in-core superblock.

Modelling conventions.
* Memory regions are total maps from byte offsets to bytes; `bcopy` is pointwise.
  The one access whose address and length come unchecked from the superblock,
  the csum copy of line 136, faults when it leaves the mapping of the disk image
  (`csum_copy_faults`) and then fails the assertion of line 135.  Media faults
  and failed allocations are not modelled: every read inside the mapping
  succeeds, and so do the accesses at the fixed offset `SBOFF`.
* `struct fs`, the constants and the macros of `ufs.h` / `fs.h` are not part of
  `hyper.c`; they are the parameter `Decls`.  `bsd44` is the 4.4BSD instance.
* C scalars are unbounded integers wrapped explicitly to the width of their C
  type.  `long` is 32 bits wide and `quad_t` 64 bits (i386, little endian).
-/

namespace Hyper

/-! ## Bytes and memory regions -/

/-- A byte-addressed region of memory: the byte held at every offset. -/
abbrev Mem := Nat → Fin 256

/-- The low eight bits of a number. -/
def byteOf (v : Nat) : Fin 256 := ⟨v % 256, Nat.mod_lt _ (by decide)⟩

/-- The C library call `bcopy (src + so, dst + d, n)`: the result is the new
content of `dst`. -/
def bcopy (src : Mem) (so : Nat) (dst : Mem) (d : Nat) (n : Nat) : Mem :=
  fun a => if d ≤ a ∧ a < d + n then src (so + (a - d)) else dst a

/-- The region of `m` that starts at offset `base`, as C sees it through the
pointer `m + base`. -/
def at_offset (m : Mem) (base : Nat) : Mem := fun i => m (base + i)

/-- Little-endian value of the `w` bytes at offset `a`. -/
def loadLE (m : Mem) (a : Nat) : Nat → Nat
  | 0 => 0
  | w + 1 => (m a).val + 256 * loadLE m (a + 1) w

/-- Store the low `w` bytes of `v` at offset `a`, little endian. -/
def storeLE (m : Mem) (a w v : Nat) : Mem :=
  fun x => if a ≤ x ∧ x < a + w then byteOf (v / 256 ^ (x - a)) else m x

/-! ## C scalar types -/

/-- The C types of the `struct fs` members used by `hyper.c`. -/
inductive CType where
  | char
  | long
  | quad
  | u_quad
  deriving DecidableEq, Repr

/-- Size in bytes (`sizeof`). -/
def CType.size : CType → Nat
  | .char => 1
  | .long => 4
  | .quad => 8
  | .u_quad => 8

/-- Whether the type is signed (plain `char` is signed on i386). -/
def CType.signed : CType → Bool
  | .char => true
  | .long => true
  | .quad => true
  | .u_quad => false

/-- The object representation (an unsigned number below `2 ^ (8 * size)`) of the
value `v` converted to type `t`: conversion is reduction modulo the width. -/
def CType.encode (t : CType) (v : Int) : Nat := (v % 2 ^ (8 * t.size)).toNat

/-- The value of type `t` whose object representation is `n`. -/
def CType.decode (t : CType) (n : Nat) : Int :=
  if t.signed = true ∧ 2 ^ (8 * t.size - 1) ≤ n then (n : Int) - 2 ^ (8 * t.size) else n

/-- Conversion of an integer to C type `t` (wrap-around on overflow). -/
def CType.wrap (t : CType) (v : Int) : Int := t.decode (t.encode v)

/-- Read an object of type `t` at offset `a`. -/
def load (t : CType) (m : Mem) (a : Nat) : Int := t.decode (loadLE m a t.size)

/-- Write `v`, converted to type `t`, at offset `a`. -/
def store (t : CType) (m : Mem) (a : Nat) (v : Int) : Mem := storeLE m a t.size (t.encode v)

/-! ## `struct fs` -/

/-- The scalar members of `struct fs` that `hyper.c` names. -/
inductive Fld where
  | fs_size
  | fs_bsize
  | fs_fsize
  | fs_bmask
  | fs_fmask
  | fs_npsect
  | fs_interleave
  | fs_csaddr
  | fs_cssize
  | fs_nsect
  | fs_clean
  | fs_maxsymlinklen
  | fs_inodefmt
  | fs_maxfilesize
  | fs_qbmask
  | fs_qfmask
  | fs_postblformat
  | fs_nrpos
  | fs_magic
  deriving DecidableEq, Repr

/-- The declared type of each member (`fs.h`): `fs_clean` is a `char`,
`fs_maxfilesize` a `u_quad_t`, the two quad masks are `quad_t`, all others
`long`. -/
def Fld.type : Fld → CType
  | .fs_clean => .char
  | .fs_maxfilesize => .u_quad
  | .fs_qbmask => .quad
  | .fs_qfmask => .quad
  | _ => .long

/-- What `hyper.c` takes from `ufs.h` and `fs.h`: constants, the layout of
`struct fs`, and the address macros. -/
structure Decls where
  /-- Byte offset of the superblock in the volume. -/
  SBOFF : Nat
  /-- Size in bytes of the superblock region. -/
  SBSIZE : Nat
  /-- Value of `sizeof (struct fs)`. -/
  sizeof_fs : Nat
  FS_MAGIC : Int
  FS_42POSTBLFMT : Int
  FS_44INODEFMT : Int
  NDADDR : Int
  NIADDR : Int
  MAXSYMLINKLEN : Int
  /-- Length of the array `fs_fsmnt`. -/
  MAXMNTLEN : Nat
  DEV_BSIZE : Nat
  COMPAT_BSD42 : Int
  COMPAT_BSD44 : Int
  /-- The Mach page size `__vm_page_size`. -/
  vm_page_size : Nat
  /-- Byte offset of each scalar member inside `struct fs`. -/
  off : Fld → Nat
  /-- Byte offset of the array member `fs_fsmnt`. -/
  fs_fsmnt : Nat
  /-- The macro `NINDIR (fs)`. -/
  NINDIR : Mem → Int
  /-- The macro `fsbtodb (fs, b)`. -/
  fsbtodb : Mem → Int → Int
  /-- The macro `fsaddr (fs, n)`. -/
  fsaddr : Mem → Int → Int
  /-- The macro `fragroundup (fs, size)`. -/
  fragroundup : Mem → Int → Int

/-- The member access `fs->f`. -/
def getf (D : Decls) (fs : Mem) (f : Fld) : Int := load f.type fs (D.off f)

/-- The assignment `fs->f = v`. -/
def setf (D : Decls) (fs : Mem) (f : Fld) (v : Int) : Mem := store f.type fs (D.off f) v

/-- Two byte ranges do not overlap. -/
def RangesApart (a w b v : Nat) : Prop := a + w ≤ b ∨ b + v ≤ a

instance (a w b v : Nat) : Decidable (RangesApart a w b v) := by
  unfold RangesApart; infer_instance

/-- The layout is that of a C structure: members lie inside the structure, the
structure inside the superblock region, and distinct members do not overlap. -/
structure Decls.WF (D : Decls) : Prop where
  size_le : D.sizeof_fs ≤ D.SBSIZE
  inside : ∀ f : Fld, D.off f + f.type.size ≤ D.sizeof_fs
  fsmnt_inside : D.fs_fsmnt + D.MAXMNTLEN ≤ D.sizeof_fs
  fsmnt_len : 7 ≤ D.MAXMNTLEN
  disj : ∀ f g : Fld, f ≠ g → RangesApart (D.off f) f.type.size (D.off g) g.type.size
  fsmnt_disj : ∀ f : Fld, RangesApart (D.off f) f.type.size D.fs_fsmnt D.MAXMNTLEN
  /-- The macro `NINDIR` does not read the members `get_hypermetadata` derives. -/
  nindir_frame : ∀ (fs : Mem) (f : Fld) (v : Int),
    f = .fs_maxfilesize ∨ f = .fs_qbmask ∨ f = .fs_qfmask →
      D.NINDIR (setf D fs f v) = D.NINDIR fs

/-! ## Global state of the translator -/

/-- The diagnostics `hyper.c` prints (`fprintf (stderr, ...)` and `error`). -/
inductive Msg where
  | bad_magic
  | bsize_too_big
  | bsize_too_small
  | symlinklen_too_big
  | not_unmounted_cleanly
  | mounted_readonly
  | disk_size_less
  | compat_switched
  | uncleaned_now_writable
  deriving DecidableEq, Repr

/-- One call of `diskfs_device_write_sync (addr, buf, len)`. -/
structure DevWrite where
  addr : Int
  len : Nat
  buf : Mem

/-- The variables `hyper.c` reads and writes, with the environment it acts on.
Pointers are modelled by the content of the storage they point to. -/
structure State where
  /-- The mapped disk image `disk_image`. -/
  disk_image : Mem
  /-- Protection of the mapping, as last set by `vm_protect`. -/
  disk_image_prot : Nat
  /-- The storage `sblock` points to. -/
  sblock : Mem
  /-- The storage `csum` points to. -/
  csum : Mem
  /-- The address held in `zeroblock` (0 when null). -/
  zeroblock : Nat
  ufs_clean : Int
  oldformat : Int
  sblock_dirty : Int
  csum_dirty : Int
  diskfs_readonly : Int
  compat_mode : Int
  direct_symlink_extension : Int
  /-- Device size in device blocks. -/
  diskfs_device_size : Int
  diskfs_log2_device_block_size : Nat
  /-- Content of the underlying device, byte addressed. -/
  device : Mem
  /-- Number of device operations issued so far. -/
  dev_ops : Nat
  /-- Error code returned by the `n`-th device operation if it is a read. -/
  dev_read_err : Nat → Int
  /-- Error code returned by the `n`-th device operation if it is a write. -/
  dev_write_err : Nat → Int
  /-- The calls of `diskfs_device_write_sync` so far, latest first. -/
  dev_writes : List DevWrite
  /-- The calls `record_poke (disk_image + off, len)` so far, latest first. -/
  pokes : List (Nat × Nat)
  /-- Address returned by `vm_allocate` for a given size, `none` on failure. -/
  vm_alloc : Int → Option Nat
  /-- Diagnostics printed so far, latest first. -/
  log : List Msg

/-- Print a diagnostic. -/
def State.say (s : State) (m : Msg) : State := { s with log := m :: s.log }

/-- How a call ends. -/
inductive Outcome where
  /-- The function returned to its caller. -/
  | returned (s : State)
  /-- The process called `exit (1)`. -/
  | exited (s : State)
  /-- An `assert` failed. -/
  | assert_failed (s : State)
  /-- The processor raised an arithmetic exception (integer division). -/
  | trapped (s : State)

/-- The state in which the call ended. -/
def Outcome.state : Outcome → State
  | .returned s => s
  | .exited s => s
  | .assert_failed s => s
  | .trapped s => s

/-- Sequencing: continue only after a normal return. -/
def Outcome.bind (o : Outcome) (f : State → Outcome) : Outcome :=
  match o with
  | .returned s => f s
  | o => o

/-- Mach protection bits. -/
def VM_PROT_READ : Nat := 1

/-- Mach protection bits. -/
def VM_PROT_WRITE : Nat := 2

/-- The macro `howmany (x, y)` of `sys/param.h`, in `long` arithmetic. -/
def howmany (x y : Int) : Int := CType.wrap .long (Int.tdiv (CType.wrap .long (x + (y - 1))) y)

/-- Whether the division in `howmany (x, y)` raises an arithmetic exception. -/
def howmany_traps (x y : Int) : Bool :=
  y == 0 || (CType.wrap .long (x + (y - 1)) == -2 ^ 31 && y == -1)

/-- The macro `round_page (x)` of Mach, in `vm_offset_t` (unsigned 32 bit)
arithmetic. -/
def round_page (D : Decls) (x : Int) : Nat :=
  (((CType.encode .long x + D.vm_page_size - 1) % 2 ^ 32) / D.vm_page_size * D.vm_page_size) % 2 ^ 32

/-! ## `get_hypermetadata` -/

/-- Lines 37-49: copy the superblock region of the disk image into `sblock`.
Allocating `sblock` and releasing the previous `zeroblock` and `csum` do not
change the modelled state. -/
def get_hypermetadata_load (D : Decls) (s : State) : State :=
  { s with sblock := bcopy s.disk_image D.SBOFF s.sblock 0 D.SBSIZE }

/-- Lines 51-79: the four fatal checks and the three assertions. -/
def get_hypermetadata_check (D : Decls) (s : State) : Outcome :=
  if getf D s.sblock .fs_magic ≠ D.FS_MAGIC then .exited (s.say .bad_magic)
  else if getf D s.sblock .fs_bsize > 8192 then .exited (s.say .bsize_too_big)
  else if CType.encode .long (getf D s.sblock .fs_bsize) < D.sizeof_fs then
    .exited (s.say .bsize_too_small)
  else if getf D s.sblock .fs_maxsymlinklen > D.MAXSYMLINKLEN then
    .exited (s.say .symlinklen_too_big)
  else if ¬ D.vm_page_size % D.DEV_BSIZE = 0 then .assert_failed s
  else if ¬ Int.tmod (getf D s.sblock .fs_bsize) D.DEV_BSIZE = 0 then .assert_failed s
  else if ¬ D.vm_page_size ≤ CType.encode .long (getf D s.sblock .fs_bsize) then .assert_failed s
  else .returned s

/-- Lines 81-95: examine the clean bit and force read-only if unclean. -/
def get_hypermetadata_clean (D : Decls) (s : State) : State :=
  let s := { s with ufs_clean := getf D s.sblock .fs_clean }
  if s.ufs_clean = 0 then
    let s := s.say .not_unmounted_cleanly
    if s.diskfs_readonly = 0 then
      { s with diskfs_readonly := 1 }.say .mounted_readonly
    else s
  else s

/-- The loop of lines 117-121: `n` rounds of `sizepb *= NINDIR (sblock);
sblock->fs_maxfilesize += sizepb`, on the pair (`sizepb`, content of `sblock`). -/
def maxfilesize_loop (D : Decls) : Nat → Int × Mem → Int × Mem
  | 0, acc => acc
  | n + 1, (sizepb, sb) =>
    let sizepb := CType.wrap .quad (sizepb * D.NINDIR sb)
    maxfilesize_loop D n (sizepb, setf D sb .fs_maxfilesize (getf D sb .fs_maxfilesize + sizepb))

/-- Lines 101-108: geometry constants an old filesystem may leave unset. -/
def get_hypermetadata_geometry (D : Decls) (sb : Mem) : Mem :=
  let sb := if getf D sb .fs_npsect < getf D sb .fs_nsect then
      setf D sb .fs_npsect (getf D sb .fs_nsect) else sb
  let sb := if getf D sb .fs_interleave < 1 then setf D sb .fs_interleave 1 else sb
  if getf D sb .fs_postblformat = D.FS_42POSTBLFMT then setf D sb .fs_nrpos 8 else sb

/-- Lines 112-123: the body of the branch for an inode format older than 4.4:
derive `fs_maxfilesize`, `fs_qbmask` and `fs_qfmask`. -/
def get_hypermetadata_derive (D : Decls) (sb : Mem) : Mem :=
  let sizepb : Int := CType.wrap .quad (getf D sb .fs_bsize)
  let sb := setf D sb .fs_maxfilesize (CType.wrap .long (getf D sb .fs_bsize * D.NDADDR - 1))
  let sb := (maxfilesize_loop D D.NIADDR.toNat (sizepb, sb)).2
  let sb := setf D sb .fs_qbmask (-(getf D sb .fs_bmask) - 1)
  setf D sb .fs_qfmask (-(getf D sb .fs_fmask) - 1)

/-- Lines 101-124: set the constants an old filesystem leaves unset. -/
def get_hypermetadata_oldfs (D : Decls) (s : State) : State :=
  let sb := get_hypermetadata_geometry D s.sblock
  if getf D sb .fs_inodefmt < D.FS_44INODEFMT then
    { s with sblock := get_hypermetadata_derive D sb, oldformat := 1 }
  else { s with sblock := sb }

/-- Lines 126-130: the 4.4 symlink/dirtype extension. -/
def get_hypermetadata_symlink (D : Decls) (s : State) : State :=
  if getf D s.sblock .fs_maxsymlinklen > 0 then { s with direct_symlink_extension := 1 }
  else { s with direct_symlink_extension := 0 }

/-- The size in bytes of the mapping of the disk image: the length
`diskfs_device_size << diskfs_log2_device_block_size` that line 268 hands to
`vm_protect` for it, as a `vm_size_t`. -/
def disk_image_size (s : State) : Nat :=
  CType.encode .long (s.diskfs_device_size * 2 ^ s.diskfs_log2_device_block_size)

/-- Whether a copy of `n` bytes from offset `a` of the disk image reads outside
the mapping, and so faults. -/
def csum_copy_faults (s : State) (a n : Nat) : Bool :=
  decide (0 < n ∧ disk_image_size s < a + n)

/-- Lines 132-139: allocate `csum` and copy it from the disk image.  The address
and the length come from the superblock unchecked: a read outside the mapping
of the disk image faults, `diskfs_catch_exception` then returns the error and
the assertion of line 135 fails.  Reads inside the mapping are taken not to
fault. -/
def get_hypermetadata_csum (D : Decls) (s : State) : Outcome :=
  if howmany_traps (getf D s.sblock .fs_cssize) (getf D s.sblock .fs_fsize) = true then .trapped s
  else
    let n := D.fsaddr s.sblock (howmany (getf D s.sblock .fs_cssize) (getf D s.sblock .fs_fsize))
    let a := D.fsaddr s.sblock (getf D s.sblock .fs_csaddr)
    if csum_copy_faults s (CType.encode .long a) (CType.encode .long n) = true then
      .assert_failed s
    else
      .returned { s with csum := bcopy s.disk_image (CType.encode .long a) (fun _ => 0) 0
                                   (CType.encode .long n) }

/-- The left operand of the comparison of line 141, in `long` arithmetic. -/
def device_bytes (s : State) : Int :=
  CType.wrap .long (s.diskfs_device_size * 2 ^ s.diskfs_log2_device_block_size)

/-- The right operand of the comparison of line 142, in `long` arithmetic. -/
def fs_bytes (D : Decls) (s : State) : Int :=
  CType.wrap .long (getf D s.sblock .fs_size * getf D s.sblock .fs_fsize)

/-- Lines 141-150: the disk must be as large as the superblock says. -/
def get_hypermetadata_size (D : Decls) (s : State) : Outcome :=
  if device_bytes s < fs_bytes D s then .exited (s.say .disk_size_less)
  else .returned s

/-- Lines 152-163: reserve `zeroblock`; override a 4.2 compatibility request on
a filesystem with 4.4 features. -/
def get_hypermetadata_compat (D : Decls) (s : State) : State :=
  let s := { s with zeroblock := (s.vm_alloc (getf D s.sblock .fs_bsize)).getD s.zeroblock }
  if (getf D s.sblock .fs_inodefmt = D.FS_44INODEFMT ∨ s.direct_symlink_extension ≠ 0)
      ∧ s.compat_mode = D.COMPAT_BSD42 then
    { s with compat_mode := D.COMPAT_BSD44 }.say .compat_switched
  else s

/-- The function `get_hypermetadata`. -/
def get_hypermetadata (D : Decls) (s : State) : Outcome :=
  (get_hypermetadata_check D (get_hypermetadata_load D s)).bind fun s =>
  (get_hypermetadata_csum D
    (get_hypermetadata_symlink D (get_hypermetadata_oldfs D (get_hypermetadata_clean D s)))).bind
  fun s => (get_hypermetadata_size D s).bind fun s =>
  .returned (get_hypermetadata_compat D s)

/-- The call `diskfs_device_read_sync (addr, &buf, len)`: the new state, the
error code, and the content of the buffer returned on success. -/
def diskfs_device_read_sync (s : State) (addr : Int) (len : Nat) : State × Int × Mem :=
  let base := addr.toNat * 2 ^ s.diskfs_log2_device_block_size
  ({ s with dev_ops := s.dev_ops + 1 }, s.dev_read_err s.dev_ops,
    fun i => if i < len then s.device (base + i) else 0)

/-- The call `diskfs_device_write_sync (addr, buf, len)`: the new state and the
error code. -/
def diskfs_device_write_sync (s : State) (addr : Int) (buf : Mem) (len : Nat) : State × Int :=
  let base := addr.toNat * 2 ^ s.diskfs_log2_device_block_size
  let err := s.dev_write_err s.dev_ops
  ({ s with dev_ops := s.dev_ops + 1,
            dev_writes := { addr := addr, len := len, buf := buf } :: s.dev_writes,
            device := if err = 0 then bcopy buf 0 s.device base len else s.device }, err)

/-! ## `copy_sblock` -/

/-- Lines 226-243: the `SBSIZE` bytes `copy_sblock` copies to the disk image,
either `sblock` itself or the copy `sblockcopy` with the sentinels of the old
formats. -/
def copy_sblock_image (D : Decls) (s : State) : Mem :=
  if getf D s.sblock .fs_postblformat = D.FS_42POSTBLFMT ∨ s.oldformat ≠ 0 then
    let sbcopy := bcopy s.sblock 0 (fun _ => 0) 0 D.SBSIZE
    let sbcopy := if getf D s.sblock .fs_postblformat = D.FS_42POSTBLFMT then
        setf D sbcopy .fs_nrpos (-1) else sbcopy
    if s.oldformat ≠ 0 then
      setf D (setf D (setf D sbcopy .fs_maxfilesize (-1)) .fs_qbmask (-1)) .fs_qfmask (-1)
    else sbcopy
  else s.sblock

/-- Lines 222-246: write the superblock into the disk image if it is dirty. -/
def copy_sblock_write (D : Decls) (s : State) : Outcome :=
  if s.sblock_dirty ≠ 0 then
    if s.diskfs_readonly ≠ 0 then .assert_failed s
    else
      .returned { s with disk_image := bcopy (copy_sblock_image D s) 0 s.disk_image D.SBOFF D.SBSIZE,
                         pokes := (D.SBOFF, D.SBSIZE) :: s.pokes,
                         sblock_dirty := 0 }
  else .returned s

/-- Lines 248-256: on a writable filesystem clear the clean flag in core, but do
not write the superblock yet. -/
def copy_sblock_reflip (D : Decls) (s : State) : State :=
  if s.diskfs_readonly = 0 ∧ getf D s.sblock .fs_clean ≠ 0 then
    { s with sblock := setf D s.sblock .fs_clean 0, sblock_dirty := 1 }
  else s

/-- The function `copy_sblock`. -/
def copy_sblock (D : Decls) (s : State) : Outcome :=
  (copy_sblock_write D s).bind fun s => .returned (copy_sblock_reflip D s)

/-! ## `diskfs_set_hypermetadata` -/

/-- Lines 179-196: write the csum data through a page-aligned buffer. -/
def diskfs_set_hypermetadata_csum (D : Decls) (s : State) : State :=
  if s.csum_dirty ≠ 0 then
    let bufsize := round_page D (D.fragroundup s.sblock (getf D s.sblock .fs_cssize))
    let r := diskfs_device_read_sync s (D.fsbtodb s.sblock (getf D s.sblock .fs_csaddr)) bufsize
    let s := r.1
    if r.2.1 = 0 then
      let buf := bcopy s.csum 0 r.2.2 0 (CType.encode .long (getf D s.sblock .fs_cssize))
      let w := diskfs_device_write_sync s (D.fsbtodb s.sblock (getf D s.sblock .fs_csaddr))
        buf bufsize
      { w.1 with csum_dirty := 0 }
    else s
  else s

/-- Lines 198-203: set the clean flag if the filesystem is clean. -/
def diskfs_set_hypermetadata_clean (D : Decls) (clean : Int) (s : State) : State :=
  if clean ≠ 0 ∧ s.ufs_clean ≠ 0 ∧ getf D s.sblock .fs_clean = 0 then
    { s with sblock := setf D s.sblock .fs_clean 1, sblock_dirty := 1 }
  else s

/-- The function `diskfs_set_hypermetadata (wait, clean)`; `wait` is not used. -/
def diskfs_set_hypermetadata (D : Decls) (_wait clean : Int) (s : State) : Outcome :=
  copy_sblock D (diskfs_set_hypermetadata_clean D clean (diskfs_set_hypermetadata_csum D s))

/-! ## `diskfs_readonly_changed` -/

/-- The C library call `strcpy (m + a, str)`: the bytes of `str` and the
terminating zero. -/
def strcpy (m : Mem) (a : Nat) (str : List (Fin 256)) : Mem :=
  fun x => if a ≤ x ∧ x < a + (str.length + 1) then (str ++ [0]).getD (x - a) 0 else m x

/-- The string literal "Hurd /". -/
def hurd_root : List (Fin 256) := [72, 117, 114, 100, 32, 47]

/-- The function `diskfs_readonly_changed (readonly)`. -/
def diskfs_readonly_changed (D : Decls) (readonly : Int) (s : State) : Outcome :=
  let s := { s with disk_image_prot :=
    VM_PROT_READ ||| (if readonly ≠ 0 then 0 else VM_PROT_WRITE) }
  if readonly ≠ 0 then .returned { s with sblock_dirty := 0 }
  else
    let s := { s with sblock := strcpy s.sblock D.fs_fsmnt hurd_root }
    let s := if getf D s.sblock .fs_clean ≠ 0 then
        { s with sblock := setf D s.sblock .fs_clean 0 }
      else s.say .uncleaned_now_writable
    diskfs_set_hypermetadata D 1 0 { s with sblock_dirty := 1 }

/-- The caller of `diskfs_readonly_changed` (libdiskfs) stores the new mode in
`diskfs_readonly` before the call. -/
def change_readonly (D : Decls) (readonly : Int) (s : State) : Outcome :=
  diskfs_readonly_changed D readonly { s with diskfs_readonly := readonly }

/-! ## The 4.4BSD declarations -/

/-- Member offsets of the 4.4BSD `struct fs` on i386. -/
def bsd44_off : Fld → Nat
  | .fs_size => 36
  | .fs_bsize => 48
  | .fs_fsize => 52
  | .fs_bmask => 72
  | .fs_fmask => 76
  | .fs_npsect => 132
  | .fs_interleave => 136
  | .fs_csaddr => 152
  | .fs_cssize => 156
  | .fs_nsect => 168
  | .fs_clean => 209
  | .fs_maxsymlinklen => 1320
  | .fs_inodefmt => 1324
  | .fs_maxfilesize => 1328
  | .fs_qbmask => 1336
  | .fs_qfmask => 1344
  | .fs_postblformat => 1356
  | .fs_nrpos => 1360
  | .fs_magic => 1372

/-- The macro `fsbtodb (fs, b)` of `fs.h`: `b << fs->fs_fsbtodb`. -/
def bsd44_fsbtodb (fs : Mem) (b : Int) : Int :=
  CType.wrap .long (b * 2 ^ (load .long fs 100).toNat)

/-- The declarations of `ufs.h` and `fs.h` as of 4.4BSD on i386. -/
def bsd44 : Decls where
  SBOFF := 8192
  SBSIZE := 8192
  sizeof_fs := 1380
  FS_MAGIC := 0x011954
  FS_42POSTBLFMT := -1
  FS_44INODEFMT := 2
  NDADDR := 12
  NIADDR := 3
  MAXSYMLINKLEN := 60
  MAXMNTLEN := 512
  DEV_BSIZE := 512
  COMPAT_BSD42 := 1
  COMPAT_BSD44 := 2
  vm_page_size := 4096
  off := bsd44_off
  fs_fsmnt := 212
  NINDIR := fun fs => load .long fs 116
  fsbtodb := bsd44_fsbtodb
  fsaddr := fun fs n => CType.wrap .long (bsd44_fsbtodb fs n * 512)
  fragroundup := fun fs size =>
    CType.decode .long
      (Nat.land (CType.encode .long (size + load .long fs 52 - 1)) (CType.encode .long (load .long fs 76)))

/-! ## Concrete volumes -/

/-- Memory holding zero bytes. -/
def zeros : Mem := fun _ => 0

/-- A `struct fs` with the listed members set and every other byte zero. -/
def mk_sblock (D : Decls) (vals : List (Fld × Int)) : Mem :=
  vals.foldl (fun m p => setf D m p.1 p.2) zeros

/-- A disk image whose superblock region holds `mk_sblock D vals`. -/
def mk_image (D : Decls) (vals : List (Fld × Int)) : Mem :=
  bcopy (mk_sblock D vals) 0 zeros D.SBOFF D.SBSIZE

/-- The translator at start-up, before `get_hypermetadata`: the disk image
`img` on a device of `devsize` blocks of 512 bytes, with the mount mode
`readonly` and the compatibility mode `compat` the caller asked for. -/
def mk_state (img : Mem) (readonly compat devsize : Int) : State where
  disk_image := img
  disk_image_prot := VM_PROT_READ ||| VM_PROT_WRITE
  sblock := zeros
  csum := zeros
  zeroblock := 0
  ufs_clean := 0
  oldformat := 0
  sblock_dirty := 0
  csum_dirty := 0
  diskfs_readonly := readonly
  compat_mode := compat
  direct_symlink_extension := 0
  diskfs_device_size := devsize
  diskfs_log2_device_block_size := 9
  device := img
  dev_ops := 0
  dev_read_err := fun _ => 0
  dev_write_err := fun _ => 0
  dev_writes := []
  pokes := []
  vm_alloc := fun _ => some 4096
  log := []

/-- A clean 4.4BSD filesystem of 2048 fragments of 512 bytes, blocks of 4096
bytes. -/
def clean_volume : Mem :=
  mk_image bsd44 [(.fs_magic, 0x011954), (.fs_bsize, 4096), (.fs_fsize, 512), (.fs_size, 2048),
    (.fs_clean, 1), (.fs_inodefmt, 2), (.fs_postblformat, 1), (.fs_nrpos, 8)]

/-- The clean volume mounted writable: after `get_hypermetadata` and the switch
to writable mode. -/
def clean_mounted : State :=
  ((get_hypermetadata bsd44 (mk_state clean_volume 0 2 2048)).bind (change_readonly bsd44 0)).state

/-- The clean volume mounted writable, with the superblock marked dirty (as the
allocation layer does after a change). -/
def clean_mounted_dirty : State := { clean_mounted with sblock_dirty := 1 }

/-- A clean filesystem with the old inode format (4.3BSD) and the dynamic
post-block format. -/
def old_volume : Mem :=
  mk_image bsd44 [(.fs_magic, 0x011954), (.fs_bsize, 4096), (.fs_fsize, 512), (.fs_size, 2048),
    (.fs_clean, 1), (.fs_inodefmt, -1), (.fs_postblformat, 1), (.fs_nrpos, 8)]

/-- The old-format volume after `get_hypermetadata` on a writable mount, with
the superblock marked dirty. -/
def old_mounted_dirty : State :=
  { (get_hypermetadata bsd44 (mk_state old_volume 0 2 2048)).state with sblock_dirty := 1 }

/-- The four ways a call can end. -/
inductive Ending where
  | returned
  | exited
  | assert_failed
  | trapped
  deriving DecidableEq, Repr

/-- The way the call ended. -/
def Outcome.ending : Outcome → Ending
  | .returned _ => .returned
  | .exited _ => .exited
  | .assert_failed _ => .assert_failed
  | .trapped _ => .trapped

/-- An old-format volume (inode format -1, oldest post-block format) with
blocks of 4096 bytes whose `fs_nindir` member, at offset 116, is 1024. -/
def old_volume_1k : Mem :=
  bcopy (store .long (mk_sblock bsd44 [(.fs_magic, 0x011954), (.fs_bsize, 4096),
      (.fs_fsize, 512), (.fs_size, 2048), (.fs_clean, 1), (.fs_inodefmt, -1),
      (.fs_postblformat, -1)]) 116 1024) 0 zeros bsd44.SBOFF bsd44.SBSIZE

/-- A 4.4BSD filesystem that was not unmounted cleanly. -/
def dirty_volume : Mem :=
  mk_image bsd44 [(.fs_magic, 0x011954), (.fs_bsize, 4096), (.fs_fsize, 512), (.fs_size, 2048),
    (.fs_clean, 0), (.fs_inodefmt, 2), (.fs_postblformat, 1), (.fs_nrpos, 8)]

/-- The clean 4.4BSD volume, but with the block size member holding -4096
(bytes 00 f0 ff ff). -/
def negative_bsize_volume : Mem :=
  mk_image bsd44 [(.fs_magic, 0x011954), (.fs_bsize, -4096), (.fs_fsize, 512),
    (.fs_size, 2048), (.fs_clean, 1), (.fs_inodefmt, 2), (.fs_postblformat, 1), (.fs_nrpos, 8)]

/-- A superblock that claims 1048576 fragments of 4096 bytes, 4 GiB in all. -/
def overclaiming_volume : Mem :=
  mk_image bsd44 [(.fs_magic, 0x011954), (.fs_bsize, 4096), (.fs_fsize, 4096),
    (.fs_size, 1048576), (.fs_clean, 1), (.fs_inodefmt, 2), (.fs_postblformat, 1),
    (.fs_nrpos, 8)]

/-- The clean 4.4BSD volume with a wrong magic number. -/
def bad_magic_volume : Mem :=
  mk_image bsd44 [(.fs_magic, 0x011955), (.fs_bsize, 4096), (.fs_fsize, 512), (.fs_size, 2048),
    (.fs_clean, 1), (.fs_inodefmt, 2), (.fs_postblformat, 1), (.fs_nrpos, 8)]

/-- The entry points of `hyper.c` a caller may use after the load. -/
inductive Call where
  /-- The call `diskfs_set_hypermetadata (wait, clean)`. -/
  | sync (wait clean : Int)
  /-- The call `copy_sblock ()`. -/
  | copy
  /-- The call `diskfs_readonly_changed (readonly)`, `diskfs_readonly` untouched. -/
  | readonly_changed (readonly : Int)
  /-- A mode change as libdiskfs performs it: `diskfs_readonly = readonly`, then
  `diskfs_readonly_changed (readonly)`. -/
  | mode_change (readonly : Int)

/-- Perform one call. -/
def Call.run (D : Decls) : Call → State → Outcome
  | .sync wait clean, s => diskfs_set_hypermetadata D wait clean s
  | .copy, s => copy_sblock D s
  | .readonly_changed readonly, s => diskfs_readonly_changed D readonly s
  | .mode_change readonly, s => change_readonly D readonly s

/-- Perform the calls in order, stopping at the first that does not return. -/
def run_calls (D : Decls) : List Call → State → Outcome
  | [], s => .returned s
  | c :: cs, s => (c.run D s).bind (run_calls D cs)

/-! ## Volumes with a csum area -/

/-- A clean 4.4BSD filesystem with a csum area of 1024 bytes at fragment 16,
fragments of 512 bytes. -/
def csum_volume : Mem :=
  mk_image bsd44 [(.fs_magic, 0x011954), (.fs_bsize, 4096), (.fs_fsize, 512), (.fs_size, 2048),
    (.fs_clean, 1), (.fs_inodefmt, 2), (.fs_postblformat, 1), (.fs_nrpos, 8),
    (.fs_fmask, -512), (.fs_bmask, -4096), (.fs_csaddr, 16), (.fs_cssize, 1024)]

/-- The volume with a csum area mounted writable, the csum table marked dirty,
on a device on which every read succeeds and every write fails with error 5. -/
def csum_dirty_write_fails : State :=
  { ((get_hypermetadata bsd44 (mk_state csum_volume 0 2 2048)).bind
      (change_readonly bsd44 0)).state with
    csum_dirty := 1, dev_write_err := fun _ => 5 }

/-- The volume with a csum area mounted writable, the csum table marked dirty,
on a device on which every read fails with error 5. -/
def csum_dirty_read_fails : State :=
  { ((get_hypermetadata bsd44 (mk_state csum_volume 0 2 2048)).bind
      (change_readonly bsd44 0)).state with
    csum_dirty := 1, dev_read_err := fun _ => 5 }

/-- The clean volume mounted writable and then switched to read-only. -/
def clean_mounted_readonly : State := (change_readonly bsd44 1 clean_mounted).state

/-- The clean volume right after `get_hypermetadata` on a writable mount:
the in-core clean flag is still set and the superblock is not dirty. -/
def clean_loaded : State := (get_hypermetadata bsd44 (mk_state clean_volume 0 2 2048)).state

/-- The unclean volume after `get_hypermetadata`: snapshot not clean, in-core
flag dirty, mount forced read-only. -/
def dirty_loaded : State := (get_hypermetadata bsd44 (mk_state dirty_volume 0 2 2048)).state

/-- A clean filesystem with the old inode format but short symlinks of up to
60 bytes stored in the inode. -/
def symlink_volume : Mem :=
  mk_image bsd44 [(.fs_magic, 0x011954), (.fs_bsize, 4096), (.fs_fsize, 512), (.fs_size, 2048),
    (.fs_clean, 1), (.fs_inodefmt, -1), (.fs_postblformat, 1), (.fs_nrpos, 8),
    (.fs_maxsymlinklen, 60)]

/-- The old-format volume after conversion to the 4.4BSD format: inode format
2, with `fs_maxfilesize`, `fs_qbmask` and `fs_qfmask` stored on disk. -/
def converted_volume : Mem :=
  mk_image bsd44 [(.fs_magic, 0x011954), (.fs_bsize, 4096), (.fs_fsize, 512), (.fs_size, 2048),
    (.fs_clean, 1), (.fs_inodefmt, 2), (.fs_postblformat, 1), (.fs_nrpos, 8),
    (.fs_bmask, -4096), (.fs_fmask, -512), (.fs_maxfilesize, 4402345721855),
    (.fs_qbmask, 4095), (.fs_qfmask, 511)]

/-- The translator after loading the old-format volume, when the volume has
since been converted to the 4.4BSD format and is about to be loaded again. -/
def before_reload : State :=
  { (get_hypermetadata bsd44 (mk_state old_volume 0 2 2048)).state with
    disk_image := converted_volume }

/-- The translator after the reload of the converted volume, with the
superblock marked dirty. -/
def reloaded_dirty : State :=
  { (get_hypermetadata bsd44 before_reload).state with sblock_dirty := 1 }

/-! # Theorems -/

/-! ## Memory lemmas -/

theorem loadLE_congr {m m' : Mem} {a w : Nat} (h : ∀ i, i < w → m (a + i) = m' (a + i)) :
    loadLE m a w = loadLE m' a w := by
  induction w generalizing a with
  | zero => rfl
  | succ w ih =>
    have h0 := h 0 (by omega)
    simp only [Nat.add_zero] at h0
    have hs : ∀ i, i < w → m (a + 1 + i) = m' (a + 1 + i) := fun i hi => by
      have := h (i + 1) (by omega)
      rwa [show a + (i + 1) = a + 1 + i by omega] at this
    simp only [loadLE, h0, ih hs]

theorem loadLE_lt (m : Mem) (a w : Nat) : loadLE m a w < 256 ^ w := by
  induction w generalizing a with
  | zero => simp [loadLE]
  | succ w ih =>
    have h1 := (m a).isLt
    have h2 := ih (a + 1)
    simp only [loadLE, Nat.pow_succ]
    omega

theorem loadLE_storeLE_shift (m : Mem) (a v w k : Nat) :
    loadLE (storeLE m a (k + w) v) (a + k) w = v / 256 ^ k % 256 ^ w := by
  induction w generalizing k with
  | zero => simp [loadLE, Nat.mod_one]
  | succ w ih =>
    have hk := ih (k + 1)
    rw [show k + 1 + w = k + (w + 1) by omega, show a + (k + 1) = a + k + 1 by omega] at hk
    have hb : (storeLE m a (k + (w + 1)) v (a + k)).val = v / 256 ^ k % 256 := by
      simp [storeLE, byteOf]
    simp only [loadLE, hk, hb]
    rw [Nat.pow_succ, Nat.pow_succ, ← Nat.div_div_eq_div_mul, Nat.mul_comm (256 ^ w) 256,
      Nat.mod_mul]

theorem loadLE_storeLE_same (m : Mem) (a w v : Nat) :
    loadLE (storeLE m a w v) a w = v % 256 ^ w := by
  have h := loadLE_storeLE_shift m a v w 0
  simpa using h

theorem loadLE_storeLE_disj (m : Mem) {a w b w' : Nat} (v : Nat) (h : RangesApart a w b w') :
    loadLE (storeLE m a w v) b w' = loadLE m b w' := by
  apply loadLE_congr
  intro i hi
  have hn : ¬ (a ≤ b + i ∧ b + i < a + w) := by
    unfold RangesApart at h
    omega
  simp [storeLE, hn]

theorem storeLE_outside (m : Mem) (a w v x : Nat) (h : x < a ∨ a + w ≤ x) :
    storeLE m a w v x = m x := by
  have hn : ¬ (a ≤ x ∧ x < a + w) := by omega
  simp [storeLE, hn]

theorem CType.encode_lt (t : CType) (v : Int) : t.encode v < 256 ^ t.size := by
  cases t <;> simp only [CType.encode, CType.size] <;> omega

theorem load_store_same (t : CType) (m : Mem) (a : Nat) (v : Int) :
    load t (store t m a v) a = t.wrap v := by
  simp only [load, store, loadLE_storeLE_same, CType.wrap,
    Nat.mod_eq_of_lt (CType.encode_lt t v)]

theorem load_store_disj (t t' : CType) (m : Mem) {a b : Nat} (v : Int)
    (h : RangesApart a t.size b t'.size) : load t' (store t m a v) b = load t' m b := by
  simp only [load, store, loadLE_storeLE_disj m _ h]

theorem load_congr (t : CType) {m m' : Mem} {a : Nat}
    (h : ∀ i, i < t.size → m (a + i) = m' (a + i)) : load t m a = load t m' a := by
  simp only [load, loadLE_congr h]

/-! ## Members of `struct fs` -/

theorem getf_setf_same (D : Decls) (m : Mem) (f : Fld) (v : Int) :
    getf D (setf D m f v) f = f.type.wrap v :=
  load_store_same _ _ _ _

theorem getf_setf_ne {D : Decls} (hD : D.WF) (m : Mem) {f g : Fld} (v : Int) (h : f ≠ g) :
    getf D (setf D m f v) g = getf D m g :=
  load_store_disj _ _ _ _ (hD.disj f g h)

theorem getf_congr (D : Decls) {m m' : Mem} (f : Fld)
    (h : ∀ i, i < f.type.size → m (D.off f + i) = m' (D.off f + i)) :
    getf D m f = getf D m' f :=
  load_congr _ h

theorem setf_outside (D : Decls) (m : Mem) (f : Fld) (v : Int) (x : Nat)
    (h : x < D.off f ∨ D.off f + f.type.size ≤ x) : setf D m f v x = m x :=
  storeLE_outside _ _ _ _ _ h

theorem bcopy_inside (src dst : Mem) (so d n a : Nat) (h : d ≤ a ∧ a < d + n) :
    bcopy src so dst d n a = src (so + (a - d)) := by
  simp [bcopy, h]

/-- A member read from a copy of the whole structure is the member of the
original. -/
theorem getf_bcopy {D : Decls} (hD : D.WF) (src dst : Mem) (so : Nat) (f : Fld) :
    getf D (bcopy src so dst 0 D.SBSIZE) f = getf D (at_offset src so) f := by
  apply getf_congr
  intro i hi
  have h1 := hD.inside f
  have h2 := hD.size_le
  rw [bcopy_inside _ _ _ _ _ _ (by omega)]
  simp [at_offset]

/-- A member read from the disk image at `SBOFF` after a structure has been
copied there is the member of the structure. -/
theorem getf_at_offset_bcopy {D : Decls} (hD : D.WF) (src dst : Mem) (f : Fld) :
    getf D (at_offset (bcopy src 0 dst D.SBOFF D.SBSIZE) D.SBOFF) f = getf D src f := by
  apply getf_congr
  intro i hi
  have h1 := hD.inside f
  have h2 := hD.size_le
  simp only [at_offset]
  rw [bcopy_inside _ _ _ _ _ _ (by omega)]
  congr 1
  omega

theorem at_offset_zero (m : Mem) : at_offset m 0 = m := by
  funext i
  simp [at_offset]

/-! ## Values of the C conversions -/

theorem wrap_char_zero : CType.wrap .char 0 = 0 := by decide

theorem wrap_char_one : CType.wrap .char 1 = 1 := by decide

theorem wrap_long_neg_one : CType.wrap .long (-1) = -1 := by decide

theorem wrap_quad_neg_one : CType.wrap .quad (-1) = -1 := by decide

theorem wrap_u_quad_neg_one : CType.wrap .u_quad (-1) = 2 ^ 64 - 1 := by decide

/-! ## The superblock as written by `copy_sblock` -/

theorem getf_copy_sblock_image {D : Decls} (hD : D.WF) (s : State) (f : Fld)
    (h1 : f ≠ .fs_nrpos) (h2 : f ≠ .fs_maxfilesize) (h3 : f ≠ .fs_qbmask)
    (h4 : f ≠ .fs_qfmask) : getf D (copy_sblock_image D s) f = getf D s.sblock f := by
  unfold copy_sblock_image
  split_ifs <;>
    simp only [getf_setf_ne hD _ _ (Ne.symm h1), getf_setf_ne hD _ _ (Ne.symm h2),
      getf_setf_ne hD _ _ (Ne.symm h3), getf_setf_ne hD _ _ (Ne.symm h4), getf_bcopy hD,
      at_offset_zero]

theorem getf_copy_sblock_image_nrpos {D : Decls} (hD : D.WF) (s : State) :
    getf D (copy_sblock_image D s) .fs_nrpos =
      if getf D s.sblock .fs_postblformat = D.FS_42POSTBLFMT then -1
      else getf D s.sblock .fs_nrpos := by
  have n1 : Fld.fs_maxfilesize ≠ Fld.fs_nrpos := by decide
  have n2 : Fld.fs_qbmask ≠ Fld.fs_nrpos := by decide
  have n3 : Fld.fs_qfmask ≠ Fld.fs_nrpos := by decide
  by_cases hp : getf D s.sblock .fs_postblformat = D.FS_42POSTBLFMT <;>
    by_cases ho : s.oldformat = 0 <;>
    simp [copy_sblock_image, hp, ho, getf_setf_ne hD _ _ n1, getf_setf_ne hD _ _ n2,
      getf_setf_ne hD _ _ n3, getf_setf_same, getf_bcopy hD, at_offset_zero, Fld.type,
      wrap_long_neg_one]

theorem getf_copy_sblock_image_old {D : Decls} (hD : D.WF) (s : State) (h : s.oldformat ≠ 0) :
    getf D (copy_sblock_image D s) .fs_maxfilesize = 2 ^ 64 - 1
      ∧ getf D (copy_sblock_image D s) .fs_qbmask = -1
      ∧ getf D (copy_sblock_image D s) .fs_qfmask = -1 := by
  have n1 : Fld.fs_qbmask ≠ Fld.fs_maxfilesize := by decide
  have n2 : Fld.fs_qfmask ≠ Fld.fs_maxfilesize := by decide
  have n3 : Fld.fs_qfmask ≠ Fld.fs_qbmask := by decide
  unfold copy_sblock_image
  simp only [h, or_true, ne_eq, not_false_eq_true, if_true, getf_setf_ne hD _ _ n1,
    getf_setf_ne hD _ _ n2, getf_setf_ne hD _ _ n3, getf_setf_same, Fld.type,
    wrap_quad_neg_one, wrap_u_quad_neg_one, and_self]

theorem copy_sblock_image_plain (D : Decls) (s : State)
    (h1 : getf D s.sblock .fs_postblformat ≠ D.FS_42POSTBLFMT) (h2 : s.oldformat = 0) :
    copy_sblock_image D s = s.sblock := by
  simp [copy_sblock_image, h1, h2]

/-! ## Frame of the csum write-back -/

theorem csum_step_frame (D : Decls) (s : State) :
    (diskfs_set_hypermetadata_csum D s).sblock = s.sblock
      ∧ (diskfs_set_hypermetadata_csum D s).sblock_dirty = s.sblock_dirty
      ∧ (diskfs_set_hypermetadata_csum D s).diskfs_readonly = s.diskfs_readonly
      ∧ (diskfs_set_hypermetadata_csum D s).ufs_clean = s.ufs_clean
      ∧ (diskfs_set_hypermetadata_csum D s).oldformat = s.oldformat
      ∧ (diskfs_set_hypermetadata_csum D s).disk_image = s.disk_image
      ∧ (diskfs_set_hypermetadata_csum D s).disk_image_prot = s.disk_image_prot
      ∧ (diskfs_set_hypermetadata_csum D s).pokes = s.pokes := by
  simp only [diskfs_set_hypermetadata_csum, diskfs_device_read_sync, diskfs_device_write_sync]
  split_ifs <;> simp

/-! ## `copy_sblock` on a dirty superblock -/

theorem copy_sblock_reflip_disk_image (D : Decls) (s : State) :
    (copy_sblock_reflip D s).disk_image = s.disk_image := by
  unfold copy_sblock_reflip
  split_ifs <;> rfl

theorem copy_sblock_dirty (D : Decls) (s : State) (hd : s.sblock_dirty ≠ 0)
    (hro : s.diskfs_readonly = 0) :
    copy_sblock D s = .returned (copy_sblock_reflip D
      { s with disk_image := bcopy (copy_sblock_image D s) 0 s.disk_image D.SBOFF D.SBSIZE,
               pokes := (D.SBOFF, D.SBSIZE) :: s.pokes,
               sblock_dirty := 0 }) := by
  simp [copy_sblock, copy_sblock_write, hd, hro, Outcome.bind]

/-- One call of `diskfs_set_hypermetadata (wait, 1)` on a writable mount of a
filesystem that was clean at mount time, with the in-core flag dirty. -/
theorem set_hypermetadata_clean_call {D : Decls} (hD : D.WF) (s : State) (w : Int)
    (hro : s.diskfs_readonly = 0) (hu : s.ufs_clean ≠ 0)
    (hc : getf D s.sblock .fs_clean = 0) :
    ∃ s1, diskfs_set_hypermetadata D w 1 s = .returned s1 ∧ s1.diskfs_readonly = 0 ∧
      s1.ufs_clean = s.ufs_clean ∧ getf D s1.sblock .fs_clean = 0 ∧ s1.sblock_dirty = 1 ∧
      getf D (at_offset s1.disk_image D.SBOFF) .fs_clean = 1 := by
  obtain ⟨f1, f2, f3, f4, f5, f6, f7, f8⟩ := csum_step_frame D s
  have hstep : diskfs_set_hypermetadata_clean D 1 (diskfs_set_hypermetadata_csum D s) =
      { diskfs_set_hypermetadata_csum D s with
        sblock := setf D s.sblock .fs_clean 1, sblock_dirty := 1 } := by
    simp [diskfs_set_hypermetadata_clean, f1, f4, hu, hc]
  have hn1 : Fld.fs_clean ≠ Fld.fs_nrpos := by decide
  have hn2 : Fld.fs_clean ≠ Fld.fs_maxfilesize := by decide
  have hn3 : Fld.fs_clean ≠ Fld.fs_qbmask := by decide
  have hn4 : Fld.fs_clean ≠ Fld.fs_qfmask := by decide
  unfold diskfs_set_hypermetadata
  rw [hstep, copy_sblock_dirty D _ (by simp) (by simpa using hro.symm ▸ f3)]
  refine ⟨_, rfl, ?_, ?_, ?_, ?_, ?_⟩
  · simp [copy_sblock_reflip, f3, hro]
    split_ifs <;> simp [f3, hro]
  · simp [copy_sblock_reflip, f4]
    split_ifs <;> simp [f4]
  · simp [copy_sblock_reflip, f3, hro, getf_setf_same, Fld.type, wrap_char_one,
      wrap_char_zero]
  · simp [copy_sblock_reflip, f3, hro, getf_setf_same, Fld.type, wrap_char_one]
  · rw [copy_sblock_reflip_disk_image]
    simp only [getf_at_offset_bcopy hD, getf_copy_sblock_image hD _ _ hn1 hn2 hn3 hn4,
      getf_setf_same, Fld.type, wrap_char_one]

/-! ## Phases of `get_hypermetadata` -/

theorem check_returned {D : Decls} {s s' : State}
    (h : get_hypermetadata_check D s = .returned s') :
    s' = s ∧ getf D s.sblock .fs_magic = D.FS_MAGIC ∧ getf D s.sblock .fs_bsize ≤ 8192
      ∧ D.sizeof_fs ≤ CType.encode .long (getf D s.sblock .fs_bsize)
      ∧ getf D s.sblock .fs_maxsymlinklen ≤ D.MAXSYMLINKLEN
      ∧ D.vm_page_size % D.DEV_BSIZE = 0
      ∧ Int.tmod (getf D s.sblock .fs_bsize) D.DEV_BSIZE = 0
      ∧ D.vm_page_size ≤ CType.encode .long (getf D s.sblock .fs_bsize) := by
  unfold get_hypermetadata_check at h
  split_ifs at h with h1 h2 h3 h4 h5 h6 h7
  simp only [Outcome.returned.injEq] at h
  exact ⟨h.symm, not_not.mp h1, not_lt.mp h2, not_lt.mp h3, not_lt.mp h4, h5, h6, h7⟩

theorem check_state_frame (D : Decls) (s : State) :
    (get_hypermetadata_check D s).state.disk_image = s.disk_image
      ∧ (get_hypermetadata_check D s).state.sblock_dirty = s.sblock_dirty
      ∧ (get_hypermetadata_check D s).state.csum_dirty = s.csum_dirty
      ∧ (get_hypermetadata_check D s).state.device = s.device
      ∧ (get_hypermetadata_check D s).state.pokes = s.pokes
      ∧ (get_hypermetadata_check D s).state.dev_writes = s.dev_writes := by
  unfold get_hypermetadata_check
  split_ifs <;> simp [Outcome.state, State.say]

theorem clean_frame (D : Decls) (s : State) :
    (get_hypermetadata_clean D s).sblock = s.sblock
      ∧ (get_hypermetadata_clean D s).disk_image = s.disk_image
      ∧ (get_hypermetadata_clean D s).sblock_dirty = s.sblock_dirty
      ∧ (get_hypermetadata_clean D s).csum_dirty = s.csum_dirty
      ∧ (get_hypermetadata_clean D s).device = s.device
      ∧ (get_hypermetadata_clean D s).pokes = s.pokes
      ∧ (get_hypermetadata_clean D s).dev_writes = s.dev_writes
      ∧ (get_hypermetadata_clean D s).diskfs_device_size = s.diskfs_device_size
      ∧ (get_hypermetadata_clean D s).diskfs_log2_device_block_size
          = s.diskfs_log2_device_block_size
      ∧ (get_hypermetadata_clean D s).oldformat = s.oldformat := by
  simp only [get_hypermetadata_clean, State.say]
  split_ifs <;> simp

theorem oldfs_frame (D : Decls) (s : State) :
    (get_hypermetadata_oldfs D s).disk_image = s.disk_image
      ∧ (get_hypermetadata_oldfs D s).sblock_dirty = s.sblock_dirty
      ∧ (get_hypermetadata_oldfs D s).csum_dirty = s.csum_dirty
      ∧ (get_hypermetadata_oldfs D s).device = s.device
      ∧ (get_hypermetadata_oldfs D s).pokes = s.pokes
      ∧ (get_hypermetadata_oldfs D s).dev_writes = s.dev_writes
      ∧ (get_hypermetadata_oldfs D s).diskfs_device_size = s.diskfs_device_size
      ∧ (get_hypermetadata_oldfs D s).diskfs_log2_device_block_size
          = s.diskfs_log2_device_block_size
      ∧ (get_hypermetadata_oldfs D s).diskfs_readonly = s.diskfs_readonly
      ∧ (get_hypermetadata_oldfs D s).ufs_clean = s.ufs_clean
      ∧ (get_hypermetadata_oldfs D s).log = s.log := by
  simp only [get_hypermetadata_oldfs]
  split_ifs <;> simp

theorem symlink_frame (D : Decls) (s : State) :
    (get_hypermetadata_symlink D s).sblock = s.sblock
      ∧ (get_hypermetadata_symlink D s).disk_image = s.disk_image
      ∧ (get_hypermetadata_symlink D s).sblock_dirty = s.sblock_dirty
      ∧ (get_hypermetadata_symlink D s).csum_dirty = s.csum_dirty
      ∧ (get_hypermetadata_symlink D s).device = s.device
      ∧ (get_hypermetadata_symlink D s).pokes = s.pokes
      ∧ (get_hypermetadata_symlink D s).dev_writes = s.dev_writes
      ∧ (get_hypermetadata_symlink D s).diskfs_device_size = s.diskfs_device_size
      ∧ (get_hypermetadata_symlink D s).diskfs_log2_device_block_size
          = s.diskfs_log2_device_block_size
      ∧ (get_hypermetadata_symlink D s).diskfs_readonly = s.diskfs_readonly
      ∧ (get_hypermetadata_symlink D s).ufs_clean = s.ufs_clean
      ∧ (get_hypermetadata_symlink D s).log = s.log
      ∧ (get_hypermetadata_symlink D s).oldformat = s.oldformat := by
  simp only [get_hypermetadata_symlink]
  split_ifs <;> simp

theorem compat_frame (D : Decls) (s : State) :
    (get_hypermetadata_compat D s).sblock = s.sblock
      ∧ (get_hypermetadata_compat D s).disk_image = s.disk_image
      ∧ (get_hypermetadata_compat D s).sblock_dirty = s.sblock_dirty
      ∧ (get_hypermetadata_compat D s).csum_dirty = s.csum_dirty
      ∧ (get_hypermetadata_compat D s).device = s.device
      ∧ (get_hypermetadata_compat D s).pokes = s.pokes
      ∧ (get_hypermetadata_compat D s).dev_writes = s.dev_writes
      ∧ (get_hypermetadata_compat D s).diskfs_device_size = s.diskfs_device_size
      ∧ (get_hypermetadata_compat D s).diskfs_log2_device_block_size
          = s.diskfs_log2_device_block_size
      ∧ (get_hypermetadata_compat D s).diskfs_readonly = s.diskfs_readonly
      ∧ (get_hypermetadata_compat D s).ufs_clean = s.ufs_clean
      ∧ (get_hypermetadata_compat D s).oldformat = s.oldformat := by
  simp only [get_hypermetadata_compat, State.say]
  split_ifs <;> simp

/-- What a normal return of the csum copy went through. -/
theorem csum_returned_eq {D : Decls} {s s' : State}
    (h : get_hypermetadata_csum D s = .returned s') :
    howmany_traps (getf D s.sblock .fs_cssize) (getf D s.sblock .fs_fsize) = false
      ∧ csum_copy_faults s (CType.encode .long (D.fsaddr s.sblock (getf D s.sblock .fs_csaddr)))
          (CType.encode .long (D.fsaddr s.sblock
            (howmany (getf D s.sblock .fs_cssize) (getf D s.sblock .fs_fsize)))) = false
      ∧ s' = { s with
          csum := bcopy s.disk_image
            (CType.encode .long (D.fsaddr s.sblock (getf D s.sblock .fs_csaddr))) (fun _ => 0) 0
            (CType.encode .long (D.fsaddr s.sblock
              (howmany (getf D s.sblock .fs_cssize) (getf D s.sblock .fs_fsize)))) } := by
  simp only [get_hypermetadata_csum] at h
  split_ifs at h with h1 h2
  simp only [Outcome.returned.injEq] at h
  exact ⟨by simpa using h1, by simpa using h2, h.symm⟩

theorem csum_returned {D : Decls} {s s' : State}
    (h : get_hypermetadata_csum D s = .returned s') :
    howmany_traps (getf D s.sblock .fs_cssize) (getf D s.sblock .fs_fsize) = false
      ∧ s'.sblock = s.sblock ∧ s'.disk_image = s.disk_image
      ∧ s'.sblock_dirty = s.sblock_dirty ∧ s'.csum_dirty = s.csum_dirty
      ∧ s'.diskfs_device_size = s.diskfs_device_size
      ∧ s'.diskfs_log2_device_block_size = s.diskfs_log2_device_block_size
      ∧ s'.diskfs_readonly = s.diskfs_readonly ∧ s'.ufs_clean = s.ufs_clean
      ∧ s'.log = s.log ∧ s'.oldformat = s.oldformat := by
  obtain ⟨h1, -, rfl⟩ := csum_returned_eq h
  exact ⟨h1, rfl, rfl, rfl, rfl, rfl, rfl, rfl, rfl, rfl, rfl⟩

theorem csum_state_frame (D : Decls) (s : State) :
    (get_hypermetadata_csum D s).state.disk_image = s.disk_image
      ∧ (get_hypermetadata_csum D s).state.sblock_dirty = s.sblock_dirty
      ∧ (get_hypermetadata_csum D s).state.csum_dirty = s.csum_dirty
      ∧ (get_hypermetadata_csum D s).state.device = s.device
      ∧ (get_hypermetadata_csum D s).state.pokes = s.pokes
      ∧ (get_hypermetadata_csum D s).state.dev_writes = s.dev_writes := by
  simp only [get_hypermetadata_csum]
  split_ifs <;> simp [Outcome.state]

theorem size_returned {D : Decls} {s s' : State}
    (h : get_hypermetadata_size D s = .returned s') :
    s' = s ∧ fs_bytes D s ≤ device_bytes s := by
  unfold get_hypermetadata_size at h
  split_ifs at h with h1
  simp only [Outcome.returned.injEq] at h
  exact ⟨h.symm, not_lt.mp h1⟩

theorem size_state_frame (D : Decls) (s : State) :
    (get_hypermetadata_size D s).state.disk_image = s.disk_image
      ∧ (get_hypermetadata_size D s).state.sblock_dirty = s.sblock_dirty
      ∧ (get_hypermetadata_size D s).state.csum_dirty = s.csum_dirty
      ∧ (get_hypermetadata_size D s).state.device = s.device
      ∧ (get_hypermetadata_size D s).state.pokes = s.pokes
      ∧ (get_hypermetadata_size D s).state.dev_writes = s.dev_writes := by
  unfold get_hypermetadata_size
  split_ifs <;> simp [Outcome.state, State.say]

/-- What a normal return of `get_hypermetadata` went through. -/
theorem get_hypermetadata_returned {D : Decls} {s s' : State}
    (h : get_hypermetadata D s = .returned s') :
    ∃ s5, get_hypermetadata_check D (get_hypermetadata_load D s)
          = .returned (get_hypermetadata_load D s)
      ∧ get_hypermetadata_csum D (get_hypermetadata_symlink D (get_hypermetadata_oldfs D
          (get_hypermetadata_clean D (get_hypermetadata_load D s)))) = .returned s5
      ∧ get_hypermetadata_size D s5 = .returned s5
      ∧ s' = get_hypermetadata_compat D s5 := by
  unfold get_hypermetadata at h
  cases hc : get_hypermetadata_check D (get_hypermetadata_load D s) with
  | returned t =>
    obtain ⟨rfl, -⟩ := check_returned hc
    rw [hc] at h
    simp only [Outcome.bind] at h
    cases hs : get_hypermetadata_csum D (get_hypermetadata_symlink D (get_hypermetadata_oldfs D
        (get_hypermetadata_clean D (get_hypermetadata_load D s)))) with
    | returned s5 =>
      rw [hs] at h
      simp only [Outcome.bind] at h
      cases hz : get_hypermetadata_size D s5 with
      | returned s6 =>
        obtain ⟨rfl, -⟩ := size_returned hz
        rw [hz] at h
        simp only [Outcome.bind, Outcome.returned.injEq] at h
        exact ⟨s6, rfl, rfl, hz, h.symm⟩
      | exited _ => rw [hz] at h; simp [Outcome.bind] at h
      | assert_failed _ => rw [hz] at h; simp [Outcome.bind] at h
      | trapped _ => rw [hz] at h; simp [Outcome.bind] at h
    | exited _ => rw [hs] at h; simp [Outcome.bind] at h
    | assert_failed _ => rw [hs] at h; simp [Outcome.bind] at h
    | trapped _ => rw [hs] at h; simp [Outcome.bind] at h
  | exited _ => rw [hc] at h; simp [Outcome.bind] at h
  | assert_failed _ => rw [hc] at h; simp [Outcome.bind] at h
  | trapped _ => rw [hc] at h; simp [Outcome.bind] at h

/-! ## The derived members of an old filesystem -/

theorem wrap_u_quad (v : Int) : CType.wrap .u_quad v = v % 2 ^ 64 := by
  simp only [CType.wrap, CType.encode, CType.decode, CType.size, CType.signed]
  norm_num
  omega

theorem wrap_quad_modEq (v : Int) : CType.wrap .quad v ≡ v [ZMOD 2 ^ 64] := by
  simp only [CType.wrap, CType.encode, CType.decode, CType.size, CType.signed, Int.ModEq]
  norm_num
  split_ifs <;> omega

theorem getf_maxfilesize_range (D : Decls) (sb : Mem) :
    0 ≤ getf D sb .fs_maxfilesize ∧ getf D sb .fs_maxfilesize < 2 ^ 64 := by
  have h := loadLE_lt sb (D.off .fs_maxfilesize) 8
  simp only [getf, load, Fld.type, CType.decode, CType.size, CType.signed]
  norm_num at h ⊢
  omega

theorem loop_getf_ne {D : Decls} (hD : D.WF) (n : Nat) (p : Int) (sb : Mem) {f : Fld}
    (h : f ≠ .fs_maxfilesize) :
    getf D (maxfilesize_loop D n (p, sb)).2 f = getf D sb f := by
  induction n generalizing p sb with
  | zero => rfl
  | succ n ih =>
    simp only [maxfilesize_loop]
    rw [ih, getf_setf_ne hD _ _ (Ne.symm h)]

theorem loop_nindir {D : Decls} (hD : D.WF) (n : Nat) (p : Int) (sb : Mem) :
    D.NINDIR (maxfilesize_loop D n (p, sb)).2 = D.NINDIR sb := by
  induction n generalizing p sb with
  | zero => rfl
  | succ n ih =>
    simp only [maxfilesize_loop]
    rw [ih, hD.nindir_frame _ _ _ (Or.inl rfl)]

/-- The loop adds `p * (N + N ^ 2 + ... + N ^ n)` to `fs_maxfilesize`, modulo
`2 ^ 64`, where `N` is `NINDIR (sblock)`. -/
theorem loop_maxfilesize {D : Decls} (hD : D.WF) (n : Nat) (p : Int) (sb : Mem) :
    getf D (maxfilesize_loop D n (p, sb)).2 .fs_maxfilesize
      = (getf D sb .fs_maxfilesize + p * ∑ i ∈ Finset.range n, D.NINDIR sb ^ (i + 1))
          % 2 ^ 64 := by
  induction n generalizing p sb with
  | zero =>
    have h := getf_maxfilesize_range D sb
    simp only [maxfilesize_loop, Finset.range_zero, Finset.sum_empty, mul_zero, add_zero]
    rw [Int.emod_eq_of_lt h.1 h.2]
  | succ n ih =>
    simp only [maxfilesize_loop]
    rw [ih, hD.nindir_frame _ _ _ (Or.inl rfl), getf_setf_same, Fld.type, wrap_u_quad,
      Finset.sum_range_succ']
    have hp := wrap_quad_modEq (p * D.NINDIR sb)
    have hs : ∑ i ∈ Finset.range n, D.NINDIR sb ^ (i + 1 + 1)
        = D.NINDIR sb * ∑ i ∈ Finset.range n, D.NINDIR sb ^ (i + 1) := by
      rw [Finset.mul_sum]
      exact Finset.sum_congr rfl (fun i _ => by ring)
    rw [hs]
    show _ ≡ _ [ZMOD 2 ^ 64]
    have h1 : (getf D sb .fs_maxfilesize + CType.wrap .quad (p * D.NINDIR sb)) % 2 ^ 64
        ≡ getf D sb .fs_maxfilesize + p * D.NINDIR sb [ZMOD 2 ^ 64] :=
      (Int.mod_modEq _ _).trans (Int.ModEq.add_left _ hp)
    have h2 := (h1.add (hp.mul_right (∑ i ∈ Finset.range n, D.NINDIR sb ^ (i + 1))))
    refine h2.trans ?_
    have e : getf D sb .fs_maxfilesize + p * D.NINDIR sb
          + p * D.NINDIR sb * ∑ i ∈ Finset.range n, D.NINDIR sb ^ (i + 1)
        = getf D sb .fs_maxfilesize + p * (D.NINDIR sb
          * ∑ i ∈ Finset.range n, D.NINDIR sb ^ (i + 1) + D.NINDIR sb ^ (0 + 1)) := by
      ring
    rw [e]

theorem geometry_getf_ne {D : Decls} (hD : D.WF) (sb : Mem) {f : Fld}
    (h1 : f ≠ .fs_npsect) (h2 : f ≠ .fs_interleave) (h3 : f ≠ .fs_nrpos) :
    getf D (get_hypermetadata_geometry D sb) f = getf D sb f := by
  simp only [get_hypermetadata_geometry]
  split_ifs <;>
    simp only [getf_setf_ne hD _ _ (Ne.symm h1), getf_setf_ne hD _ _ (Ne.symm h2),
      getf_setf_ne hD _ _ (Ne.symm h3)]

theorem derive_getf_ne {D : Decls} (hD : D.WF) (sb : Mem) {f : Fld}
    (h1 : f ≠ .fs_maxfilesize) (h2 : f ≠ .fs_qbmask) (h3 : f ≠ .fs_qfmask) :
    getf D (get_hypermetadata_derive D sb) f = getf D sb f := by
  simp only [get_hypermetadata_derive, getf_setf_ne hD _ _ (Ne.symm h1),
    getf_setf_ne hD _ _ (Ne.symm h2), getf_setf_ne hD _ _ (Ne.symm h3), loop_getf_ne hD _ _ _ h1]

theorem derive_nindir {D : Decls} (hD : D.WF) (sb : Mem) :
    D.NINDIR (get_hypermetadata_derive D sb) = D.NINDIR sb := by
  simp only [get_hypermetadata_derive]
  rw [hD.nindir_frame _ _ _ (Or.inr (Or.inr rfl)), hD.nindir_frame _ _ _ (Or.inr (Or.inl rfl)),
    loop_nindir hD, hD.nindir_frame _ _ _ (Or.inl rfl)]

/-- The value lines 112-121 leave in `fs_maxfilesize`, with `b` the block size
and `N` the value of `NINDIR (sblock)`. -/
theorem derive_maxfilesize {D : Decls} (hD : D.WF) (sb : Mem) :
    getf D (get_hypermetadata_derive D sb) .fs_maxfilesize
      = (CType.wrap .long (getf D sb .fs_bsize * D.NDADDR - 1)
          + getf D sb .fs_bsize * ∑ i ∈ Finset.range D.NIADDR.toNat, D.NINDIR sb ^ (i + 1))
        % 2 ^ 64 := by
  have n1 : Fld.fs_qbmask ≠ Fld.fs_maxfilesize := by decide
  have n2 : Fld.fs_qfmask ≠ Fld.fs_maxfilesize := by decide
  simp only [get_hypermetadata_derive, getf_setf_ne hD _ _ n1, getf_setf_ne hD _ _ n2]
  rw [loop_maxfilesize hD, hD.nindir_frame _ _ _ (Or.inl rfl), getf_setf_same, Fld.type,
    wrap_u_quad]
  show _ ≡ _ [ZMOD 2 ^ 64]
  exact (Int.mod_modEq _ _).add ((wrap_quad_modEq _).mul_right _)

theorem oldfs_getf_ne {D : Decls} (hD : D.WF) (s : State) {f : Fld}
    (h1 : f ≠ .fs_npsect) (h2 : f ≠ .fs_interleave) (h3 : f ≠ .fs_nrpos)
    (h4 : f ≠ .fs_maxfilesize) (h5 : f ≠ .fs_qbmask) (h6 : f ≠ .fs_qfmask) :
    getf D (get_hypermetadata_oldfs D s).sblock f = getf D s.sblock f := by
  simp only [get_hypermetadata_oldfs]
  split_ifs <;> simp only [derive_getf_ne hD _ h4 h5 h6, geometry_getf_ne hD _ h1 h2 h3]

theorem oldfs_nindir {D : Decls} (hD : D.WF) (s : State) :
    D.NINDIR (get_hypermetadata_oldfs D s).sblock
      = D.NINDIR (get_hypermetadata_geometry D s.sblock) := by
  simp only [get_hypermetadata_oldfs]
  split_ifs <;> simp only [derive_nindir hD]

theorem oldfs_maxfilesize {D : Decls} (hD : D.WF) (s : State)
    (h : getf D s.sblock .fs_inodefmt < D.FS_44INODEFMT) :
    getf D (get_hypermetadata_oldfs D s).sblock .fs_maxfilesize
      = (CType.wrap .long (getf D s.sblock .fs_bsize * D.NDADDR - 1)
          + getf D s.sblock .fs_bsize * ∑ i ∈ Finset.range D.NIADDR.toNat,
              D.NINDIR (get_hypermetadata_oldfs D s).sblock ^ (i + 1))
        % 2 ^ 64 := by
  have e1 : getf D (get_hypermetadata_geometry D s.sblock) .fs_inodefmt
      = getf D s.sblock .fs_inodefmt :=
    geometry_getf_ne hD _ (by decide) (by decide) (by decide)
  have e2 : getf D (get_hypermetadata_geometry D s.sblock) .fs_bsize
      = getf D s.sblock .fs_bsize :=
    geometry_getf_ne hD _ (by decide) (by decide) (by decide)
  rw [oldfs_nindir hD]
  simp only [get_hypermetadata_oldfs, e1, h, if_true, derive_maxfilesize hD, e2]

theorem load_getf {D : Decls} (hD : D.WF) (s : State) (f : Fld) :
    getf D (get_hypermetadata_load D s).sblock f = getf D (at_offset s.disk_image D.SBOFF) f :=
  getf_bcopy hD _ _ _ _

/-- The state after a normal return of `get_hypermetadata`, member by member. -/
theorem get_hypermetadata_returned_state {D : Decls} {s s' : State}
    (h : get_hypermetadata D s = .returned s') :
    s'.sblock = (get_hypermetadata_oldfs D (get_hypermetadata_load D s)).sblock
      ∧ s'.diskfs_readonly
          = (get_hypermetadata_clean D (get_hypermetadata_load D s)).diskfs_readonly
      ∧ s'.ufs_clean = (get_hypermetadata_clean D (get_hypermetadata_load D s)).ufs_clean
      ∧ s'.diskfs_device_size = s.diskfs_device_size
      ∧ s'.diskfs_log2_device_block_size = s.diskfs_log2_device_block_size
      ∧ fs_bytes D s' ≤ device_bytes s'
      ∧ howmany_traps (getf D s'.sblock .fs_cssize) (getf D s'.sblock .fs_fsize) = false := by
  obtain ⟨s5, -, h5, hz, rfl⟩ := get_hypermetadata_returned h
  obtain ⟨ht, c1, -, -, -, c5, c6, c7, c8, -, -⟩ := csum_returned h5
  obtain ⟨-, hle⟩ := size_returned hz
  obtain ⟨k1, -, -, -, -, -, -, k7, k8, k9, k10, -⟩ := compat_frame D s5
  obtain ⟨y1, -, -, -, -, -, -, y7, y8, y9, y10, -, -⟩ := symlink_frame D
    (get_hypermetadata_oldfs D (get_hypermetadata_clean D (get_hypermetadata_load D s)))
  obtain ⟨-, -, -, -, -, -, o7, o8, o9, o10, -⟩ := oldfs_frame D
    (get_hypermetadata_clean D (get_hypermetadata_load D s))
  obtain ⟨l1, -, -, -, -, -, -, l8, l9, -⟩ := clean_frame D (get_hypermetadata_load D s)
  have hsb : (get_hypermetadata_compat D s5).sblock
      = (get_hypermetadata_oldfs D (get_hypermetadata_load D s)).sblock := by
    rw [k1, c1, y1]
    simp only [get_hypermetadata_oldfs, l1]
    split_ifs <;> rfl
  refine ⟨hsb, ?_, ?_, ?_, ?_, ?_, ?_⟩
  · rw [k9, c7, y9, o9]
  · rw [k10, c8, y10, o10]
  · rw [k7, c5, y7, o7, l8]
    rfl
  · rw [k8, c6, y8, o8, l9]
    rfl
  · simpa only [fs_bytes, device_bytes, k1, k7, k8] using hle
  · rw [k1, c1]
    exact ht

theorem sum_Icc_pow (b N : Int) (n : Nat) :
    ∑ i ∈ Finset.Icc 1 n, b * N ^ i = b * ∑ i ∈ Finset.range n, N ^ (i + 1) := by
  induction n with
  | zero => simp
  | succ n ih =>
    rw [Finset.sum_Icc_succ_top (by omega), ih, Finset.sum_range_succ]
    ring

theorem compat_log_mono (D : Decls) (s : State) (m : Msg) (h : m ∈ s.log) :
    m ∈ (get_hypermetadata_compat D s).log := by
  simp only [get_hypermetadata_compat, State.say]
  split_ifs <;> simp [h]

/-- The diagnostics printed before the compatibility check are still in the log
after a normal return. -/
theorem get_hypermetadata_returned_log {D : Decls} {s s' : State}
    (h : get_hypermetadata D s = .returned s') (m : Msg)
    (hm : m ∈ (get_hypermetadata_clean D (get_hypermetadata_load D s)).log) : m ∈ s'.log := by
  obtain ⟨s5, -, h5, -, rfl⟩ := get_hypermetadata_returned h
  obtain ⟨-, -, -, -, -, -, -, -, -, c10, -⟩ := csum_returned h5
  obtain ⟨-, -, -, -, -, -, -, -, -, -, -, y12, -⟩ := symlink_frame D
    (get_hypermetadata_oldfs D (get_hypermetadata_clean D (get_hypermetadata_load D s)))
  obtain ⟨-, -, -, -, -, -, -, -, -, -, o11⟩ := oldfs_frame D
    (get_hypermetadata_clean D (get_hypermetadata_load D s))
  apply compat_log_mono
  rw [c10, y12, o11]
  exact hm

/-- An outcome followed by a continuation either returned and went on, or is
the final outcome. -/
theorem bind_cases (o : Outcome) (f : State → Outcome) :
    (∃ t, o = .returned t ∧ o.bind f = f t) ∨ o.bind f = o := by
  cases o with
  | returned t => exact Or.inl ⟨t, rfl, rfl⟩
  | exited _ => exact Or.inr rfl
  | assert_failed _ => exact Or.inr rfl
  | trapped _ => exact Or.inr rfl

/-- On every path `get_hypermetadata` leaves the disk image, the device, the
dirty flags and the list of recorded pokes as they were. -/
theorem get_hypermetadata_state_frame (D : Decls) (s : State) :
    (get_hypermetadata D s).state.disk_image = s.disk_image
      ∧ (get_hypermetadata D s).state.sblock_dirty = s.sblock_dirty
      ∧ (get_hypermetadata D s).state.csum_dirty = s.csum_dirty
      ∧ (get_hypermetadata D s).state.device = s.device
      ∧ (get_hypermetadata D s).state.pokes = s.pokes
      ∧ (get_hypermetadata D s).state.dev_writes = s.dev_writes := by
  have hc := check_state_frame D (get_hypermetadata_load D s)
  unfold get_hypermetadata
  rcases bind_cases (get_hypermetadata_check D (get_hypermetadata_load D s)) _ with
    ⟨t, ht, e⟩ | e
  · obtain ⟨rfl, -⟩ := check_returned ht
    rw [e]
    obtain ⟨-, l2, l3, l4, l5, l6, l7, -⟩ := clean_frame D (get_hypermetadata_load D s)
    obtain ⟨o1, o2, o3, o4, o5, o6, -⟩ := oldfs_frame D
      (get_hypermetadata_clean D (get_hypermetadata_load D s))
    obtain ⟨-, y2, y3, y4, y5, y6, y7, -⟩ := symlink_frame D
      (get_hypermetadata_oldfs D (get_hypermetadata_clean D (get_hypermetadata_load D s)))
    have hs := csum_state_frame D (get_hypermetadata_symlink D (get_hypermetadata_oldfs D
      (get_hypermetadata_clean D (get_hypermetadata_load D s))))
    rw [y2, y3, y4, y5, y6, y7, o1, o2, o3, o4, o5, o6, l2, l3, l4, l5, l6, l7] at hs
    rcases bind_cases (get_hypermetadata_csum D (get_hypermetadata_symlink D
      (get_hypermetadata_oldfs D (get_hypermetadata_clean D (get_hypermetadata_load D s))))) _
      with ⟨s5, h5, e5⟩ | e5
    · rw [e5]
      rw [h5] at hs
      simp only [Outcome.state] at hs
      have hz := size_state_frame D s5
      rcases bind_cases (get_hypermetadata_size D s5) (fun s =>
        .returned (get_hypermetadata_compat D s)) with ⟨s6, h6, e6⟩ | e6
      · obtain ⟨rfl, -⟩ := size_returned h6
        rw [e6]
        obtain ⟨-, k2, k3, k4, k5, k6, k7, -⟩ := compat_frame D s6
        simp only [Outcome.state, k2, k3, k4, k5, k6, k7]
        exact hs
      · rw [e6]
        obtain ⟨z1, z2, z3, z4, z5, z6⟩ := hz
        obtain ⟨a1, a2, a3, a4, a5, a6⟩ := hs
        exact ⟨z1.trans a1, z2.trans a2, z3.trans a3, z4.trans a4, z5.trans a5, z6.trans a6⟩
    · rw [e5]
      exact hs
  · rw [e]
    exact hc

theorem bsd44_WF : bsd44.WF where
  size_le := by decide
  inside := by intro f; cases f <;> decide
  fsmnt_inside := by decide
  fsmnt_len := by decide
  disj := by intro f g; cases f <;> cases g <;> decide
  fsmnt_disj := by intro f; cases f <;> decide
  nindir_frame := by
    intro fs f v h
    show load .long (store f.type fs (bsd44_off f) v) 116 = load .long fs 116
    apply load_store_disj
    rcases h with h | h | h <;> subst h <;> decide

/-! ## Clean-bit behaviour of two successive synchronisations (C1) -/

/-- C1, as stated, fails: on the clean volume mounted writable (snapshot clean,
in-core flag dirty) both calls of `diskfs_set_hypermetadata (1, 1)` return, and
after the first call, and again after the second, the superblock stored in the
disk image at `SBOFF` has its clean bit set (1), not dirty (0). -/
theorem sync_twice_disk_dirty_counterexample :
    clean_mounted.diskfs_readonly = 0 ∧ clean_mounted.ufs_clean ≠ 0
      ∧ getf bsd44 clean_mounted.sblock .fs_clean = 0
      ∧ (diskfs_set_hypermetadata bsd44 1 1 clean_mounted).ending = .returned
      ∧ ¬ getf bsd44 (at_offset
            (diskfs_set_hypermetadata bsd44 1 1 clean_mounted).state.disk_image bsd44.SBOFF)
          .fs_clean = 0
      ∧ ((diskfs_set_hypermetadata bsd44 1 1 clean_mounted).bind
            (diskfs_set_hypermetadata bsd44 1 1)).ending = .returned
      ∧ ¬ getf bsd44 (at_offset
            ((diskfs_set_hypermetadata bsd44 1 1 clean_mounted).bind
              (diskfs_set_hypermetadata bsd44 1 1)).state.disk_image bsd44.SBOFF)
          .fs_clean = 0 := by
  decide

/-- C1, amended: from a writable mount whose mount-time snapshot was clean and
whose in-core clean flag is dirty, two calls of `diskfs_set_hypermetadata (1, 1)`
in a row both return, and after each of them the superblock stored in the disk
image at `SBOFF` has its clean bit set (1), while the in-core clean flag is dirty
(0) again and `sblock_dirty` is set. -/
theorem sync_twice_leaves_disk_clean (D : Decls) (hD : D.WF) (s : State)
    (hro : s.diskfs_readonly = 0) (hu : s.ufs_clean ≠ 0)
    (hc : getf D s.sblock .fs_clean = 0) :
    ∃ s1 s2, diskfs_set_hypermetadata D 1 1 s = .returned s1
      ∧ diskfs_set_hypermetadata D 1 1 s1 = .returned s2
      ∧ getf D (at_offset s1.disk_image D.SBOFF) .fs_clean = 1
      ∧ getf D s1.sblock .fs_clean = 0 ∧ s1.sblock_dirty = 1
      ∧ getf D (at_offset s2.disk_image D.SBOFF) .fs_clean = 1
      ∧ getf D s2.sblock .fs_clean = 0 ∧ s2.sblock_dirty = 1 := by
  obtain ⟨s1, e1, r1, u1, c1, d1, k1⟩ := set_hypermetadata_clean_call hD s 1 hro hu hc
  obtain ⟨s2, e2, _, _, c2, d2, k2⟩ :=
    set_hypermetadata_clean_call hD s1 1 r1 (u1 ▸ hu) c1
  exact ⟨s1, s2, e1, e2, k1, c1, d1, k2, c2, d2⟩

/-- The amended C1 at the clean volume mounted writable. -/
theorem sync_twice_leaves_disk_clean_witness :
    clean_mounted.diskfs_readonly = 0 ∧ clean_mounted.ufs_clean ≠ 0
      ∧ getf bsd44 clean_mounted.sblock .fs_clean = 0
      ∧ ∃ s1 s2, diskfs_set_hypermetadata bsd44 1 1 clean_mounted = .returned s1
        ∧ diskfs_set_hypermetadata bsd44 1 1 s1 = .returned s2
        ∧ getf bsd44 (at_offset s1.disk_image bsd44.SBOFF) .fs_clean = 1
        ∧ getf bsd44 s1.sblock .fs_clean = 0 ∧ s1.sblock_dirty = 1
        ∧ getf bsd44 (at_offset s2.disk_image bsd44.SBOFF) .fs_clean = 1
        ∧ getf bsd44 s2.sblock .fs_clean = 0 ∧ s2.sblock_dirty = 1 :=
  ⟨by decide, by decide, by decide,
    sync_twice_leaves_disk_clean bsd44 bsd44_WF clean_mounted (by decide) (by decide)
      (by decide)⟩

/-! ## Writing an old-format superblock (C2) -/

/-- C2, as stated, fails: the old-format volume (inode format -1, below
`FS_44INODEFMT`) with the dynamic post-block format is tagged old-format, dirty
and writable, `copy_sblock` returns, and the superblock stored at `SBOFF` has
`fs_nrpos` equal to its in-core value 8, not all-ones. -/
theorem old_format_nrpos_counterexample :
    getf bsd44 (at_offset old_volume bsd44.SBOFF) .fs_inodefmt < bsd44.FS_44INODEFMT
      ∧ old_mounted_dirty.oldformat ≠ 0 ∧ old_mounted_dirty.sblock_dirty ≠ 0
      ∧ old_mounted_dirty.diskfs_readonly = 0
      ∧ (copy_sblock bsd44 old_mounted_dirty).ending = .returned
      ∧ getf bsd44 (at_offset (copy_sblock bsd44 old_mounted_dirty).state.disk_image bsd44.SBOFF)
          .fs_nrpos = 8
      ∧ ¬ getf bsd44 (at_offset (copy_sblock bsd44 old_mounted_dirty).state.disk_image
            bsd44.SBOFF) .fs_nrpos = -1 := by
  decide

/-- C2, amended: for every record tagged old-format that is dirty on a writable
mount, `copy_sblock` returns and stores at `SBOFF` a superblock whose
`fs_maxfilesize`, `fs_qbmask` and `fs_qfmask` read back as all-ones (the
unsigned `2 ^ 64 - 1`, respectively the signed -1), whatever their in-core
values; `fs_nrpos` reads back as all-ones (-1) when `fs_postblformat` is
`FS_42POSTBLFMT`, and as its in-core value otherwise. -/
theorem copy_sblock_old_format_sentinels (D : Decls) (hD : D.WF) (s : State)
    (ho : s.oldformat ≠ 0) (hd : s.sblock_dirty ≠ 0) (hro : s.diskfs_readonly = 0) :
    ∃ s', copy_sblock D s = .returned s'
      ∧ getf D (at_offset s'.disk_image D.SBOFF) .fs_maxfilesize = 2 ^ 64 - 1
      ∧ getf D (at_offset s'.disk_image D.SBOFF) .fs_qbmask = -1
      ∧ getf D (at_offset s'.disk_image D.SBOFF) .fs_qfmask = -1
      ∧ (getf D s.sblock .fs_postblformat = D.FS_42POSTBLFMT →
          getf D (at_offset s'.disk_image D.SBOFF) .fs_nrpos = -1)
      ∧ (getf D s.sblock .fs_postblformat ≠ D.FS_42POSTBLFMT →
          getf D (at_offset s'.disk_image D.SBOFF) .fs_nrpos = getf D s.sblock .fs_nrpos) := by
  obtain ⟨h1, h2, h3⟩ := getf_copy_sblock_image_old hD s ho
  have h4 := getf_copy_sblock_image_nrpos hD s
  refine ⟨_, copy_sblock_dirty D s hd hro, ?_, ?_, ?_, ?_, ?_⟩ <;>
    rw [copy_sblock_reflip_disk_image] <;> simp only [getf_at_offset_bcopy hD]
  · exact h1
  · exact h2
  · exact h3
  · intro hp
    rw [h4, if_pos hp]
  · intro hp
    rw [h4, if_neg hp]

/-- The amended C2 at the old-format volume. -/
theorem copy_sblock_old_format_sentinels_witness :
    old_mounted_dirty.oldformat ≠ 0 ∧ old_mounted_dirty.sblock_dirty ≠ 0
      ∧ old_mounted_dirty.diskfs_readonly = 0
      ∧ ∃ s', copy_sblock bsd44 old_mounted_dirty = .returned s'
        ∧ getf bsd44 (at_offset s'.disk_image bsd44.SBOFF) .fs_maxfilesize = 2 ^ 64 - 1
        ∧ getf bsd44 (at_offset s'.disk_image bsd44.SBOFF) .fs_qbmask = -1
        ∧ getf bsd44 (at_offset s'.disk_image bsd44.SBOFF) .fs_qfmask = -1
        ∧ (getf bsd44 old_mounted_dirty.sblock .fs_postblformat = bsd44.FS_42POSTBLFMT →
            getf bsd44 (at_offset s'.disk_image bsd44.SBOFF) .fs_nrpos = -1)
        ∧ (getf bsd44 old_mounted_dirty.sblock .fs_postblformat ≠ bsd44.FS_42POSTBLFMT →
            getf bsd44 (at_offset s'.disk_image bsd44.SBOFF) .fs_nrpos
              = getf bsd44 old_mounted_dirty.sblock .fs_nrpos) :=
  ⟨by decide, by decide, by decide,
    copy_sblock_old_format_sentinels bsd44 bsd44_WF old_mounted_dirty (by decide) (by decide)
      (by decide)⟩

/-! ## Writing a new-format superblock (C3) -/

/-- C3: for every dirty in-core record on a writable mount that is not tagged
old-format and whose `fs_postblformat` is not `FS_42POSTBLFMT`, `copy_sblock`
returns and the `SBSIZE` bytes of the disk image at `SBOFF` are byte for byte
the `SBSIZE` bytes of the in-core record as it was on entry. -/
theorem copy_sblock_roundtrip_plain (D : Decls) (s : State) (hd : s.sblock_dirty ≠ 0)
    (hro : s.diskfs_readonly = 0) (ho : s.oldformat = 0)
    (hp : getf D s.sblock .fs_postblformat ≠ D.FS_42POSTBLFMT) :
    ∃ s', copy_sblock D s = .returned s'
      ∧ ∀ i, i < D.SBSIZE → s'.disk_image (D.SBOFF + i) = s.sblock i := by
  refine ⟨_, copy_sblock_dirty D s hd hro, ?_⟩
  intro i hi
  rw [copy_sblock_reflip_disk_image, copy_sblock_image_plain D s hp ho]
  simp only []
  rw [bcopy_inside _ _ _ _ _ _ (by omega)]
  congr 1
  omega

/-- C3 at the clean 4.4BSD volume mounted writable and marked dirty. -/
theorem copy_sblock_roundtrip_plain_witness :
    clean_mounted_dirty.sblock_dirty ≠ 0 ∧ clean_mounted_dirty.diskfs_readonly = 0
      ∧ clean_mounted_dirty.oldformat = 0
      ∧ getf bsd44 clean_mounted_dirty.sblock .fs_postblformat ≠ bsd44.FS_42POSTBLFMT
      ∧ ∃ s', copy_sblock bsd44 clean_mounted_dirty = .returned s'
        ∧ ∀ i, i < bsd44.SBSIZE →
            s'.disk_image (bsd44.SBOFF + i) = clean_mounted_dirty.sblock i :=
  ⟨by decide, by decide, by decide, by decide,
    copy_sblock_roundtrip_plain bsd44 clean_mounted_dirty (by decide) (by decide) (by decide)
      (by decide)⟩

/-! ## The derived maximum file size (C4) -/

/-- C4: when `get_hypermetadata` returns on a record whose inode format is below
`FS_44INODEFMT`, `fs_maxfilesize` holds
`fs_bsize * NDADDR - 1 + sum over i = 1..NIADDR of fs_bsize * NINDIR ^ i`, as C
computes it (the first term in `long`, the total modulo `2 ^ 64`); with
`NDADDR = 12`, `NIADDR = 3`, `fs_bsize = 4096` and `NINDIR = 1024` nothing wraps
around and the value is exactly
`4096 * 12 - 1 + 4096 * 1024 + 4096 * 1024 ^ 2 + 4096 * 1024 ^ 3 = 4402345721855`. -/
theorem get_hypermetadata_maxfilesize (D : Decls) (hD : D.WF) (s s' : State)
    (h : get_hypermetadata D s = .returned s')
    (hold : getf D (at_offset s.disk_image D.SBOFF) .fs_inodefmt < D.FS_44INODEFMT) :
    getf D s'.sblock .fs_maxfilesize
        = (CType.wrap .long (getf D s'.sblock .fs_bsize * D.NDADDR - 1)
            + ∑ i ∈ Finset.Icc 1 D.NIADDR.toNat,
                getf D s'.sblock .fs_bsize * D.NINDIR s'.sblock ^ i) % 2 ^ 64
      ∧ (D.NDADDR = 12 → D.NIADDR = 3 → getf D s'.sblock .fs_bsize = 4096 →
          D.NINDIR s'.sblock = 1024 →
          getf D s'.sblock .fs_maxfilesize
              = 4096 * 12 - 1 + 4096 * 1024 + 4096 * 1024 ^ 2 + 4096 * 1024 ^ 3
            ∧ getf D s'.sblock .fs_maxfilesize = 4402345721855
            ∧ getf D s'.sblock .fs_maxfilesize < 2 ^ 64) := by
  obtain ⟨hsb, -⟩ := get_hypermetadata_returned_state h
  have hb : getf D s'.sblock .fs_bsize = getf D (get_hypermetadata_load D s).sblock .fs_bsize := by
    rw [hsb]
    exact oldfs_getf_ne hD _ (by decide) (by decide) (by decide) (by decide) (by decide)
      (by decide)
  have hmain : getf D s'.sblock .fs_maxfilesize
      = (CType.wrap .long (getf D s'.sblock .fs_bsize * D.NDADDR - 1)
          + ∑ i ∈ Finset.Icc 1 D.NIADDR.toNat,
              getf D s'.sblock .fs_bsize * D.NINDIR s'.sblock ^ i) % 2 ^ 64 := by
    rw [sum_Icc_pow, hb, hsb]
    exact oldfs_maxfilesize hD _ (by rw [load_getf hD]; exact hold)
  refine ⟨hmain, ?_⟩
  intro h1 h2 h3 h4
  have hv : getf D s'.sblock .fs_maxfilesize = 4402345721855 := by
    rw [hmain, h1, h2, h3, h4]
    decide
  rw [hv]
  exact ⟨by norm_num, rfl, by norm_num⟩

/-- C4 at the old-format volume with blocks of 4096 bytes and 1024 block
addresses per indirect block, under the 4.4BSD constants. -/
theorem get_hypermetadata_maxfilesize_witness :
    get_hypermetadata bsd44 (mk_state old_volume_1k 0 2 2048)
        = .returned (get_hypermetadata bsd44 (mk_state old_volume_1k 0 2 2048)).state
      ∧ getf bsd44 (at_offset (mk_state old_volume_1k 0 2 2048).disk_image bsd44.SBOFF)
          .fs_inodefmt < bsd44.FS_44INODEFMT
      ∧ getf bsd44 (get_hypermetadata bsd44 (mk_state old_volume_1k 0 2 2048)).state.sblock
          .fs_maxfilesize = 4402345721855 :=
  ⟨rfl, by decide,
    ((get_hypermetadata_maxfilesize bsd44 bsd44_WF (mk_state old_volume_1k 0 2 2048) _ rfl
      (by decide)).2 rfl rfl (by decide) (by decide)).2.1⟩

/-! ## Forcing a read-only mount of an unclean filesystem (C5) -/

/-- C5: when `get_hypermetadata` returns (the superblock passed validation), the
mount-time snapshot `ufs_clean` equals the clean bit of the on-disk superblock;
if that bit is dirty (0) and the caller asked for a writable mount
(`diskfs_readonly == 0`) then `diskfs_readonly` is 1 on return and both warnings
have been printed; if that bit is clean, `diskfs_readonly` is as the caller set
it. -/
theorem get_hypermetadata_forces_readonly (D : Decls) (hD : D.WF) (s s' : State)
    (h : get_hypermetadata D s = .returned s') :
    s'.ufs_clean = getf D (at_offset s.disk_image D.SBOFF) .fs_clean
      ∧ (getf D (at_offset s.disk_image D.SBOFF) .fs_clean = 0 → s.diskfs_readonly = 0 →
          s'.diskfs_readonly = 1 ∧ Msg.not_unmounted_cleanly ∈ s'.log
            ∧ Msg.mounted_readonly ∈ s'.log)
      ∧ (getf D (at_offset s.disk_image D.SBOFF) .fs_clean ≠ 0 →
          s'.diskfs_readonly = s.diskfs_readonly) := by
  obtain ⟨-, hro, hu, -⟩ := get_hypermetadata_returned_state h
  have hlog := get_hypermetadata_returned_log h
  have hc := load_getf hD s .fs_clean
  refine ⟨?_, ?_, ?_⟩
  · rw [hu, ← hc]
    simp only [get_hypermetadata_clean, State.say]
    split_ifs <;> rfl
  · intro h0 hr
    have hr' : (get_hypermetadata_load D s).diskfs_readonly = 0 := hr
    refine ⟨?_, hlog _ ?_, hlog _ ?_⟩
    · rw [hro]
      simp [get_hypermetadata_clean, State.say, hc, h0, hr']
    · simp [get_hypermetadata_clean, State.say, hc, h0, hr']
    · simp [get_hypermetadata_clean, State.say, hc, h0, hr']
  · intro h1
    rw [hro]
    simp [get_hypermetadata_clean, State.say, hc, h1]
    rfl

/-- C5 at the unclean volume with a writable mount requested: the mount comes
out read-only. -/
theorem get_hypermetadata_forces_readonly_witness :
    get_hypermetadata bsd44 (mk_state dirty_volume 0 2 2048)
        = .returned (get_hypermetadata bsd44 (mk_state dirty_volume 0 2 2048)).state
      ∧ getf bsd44 (at_offset (mk_state dirty_volume 0 2 2048).disk_image bsd44.SBOFF)
          .fs_clean = 0
      ∧ (mk_state dirty_volume 0 2 2048).diskfs_readonly = 0
      ∧ (get_hypermetadata bsd44 (mk_state dirty_volume 0 2 2048)).state.diskfs_readonly = 1 :=
  ⟨rfl, by decide, by decide,
    ((get_hypermetadata_forces_readonly bsd44 bsd44_WF (mk_state dirty_volume 0 2 2048) _
      rfl).2.1 (by decide) (by decide)).1⟩

/-! ## Toggling the mount mode (C6) -/

/-- C6: from any state, in particular any state reached by a successful load, the
sequence `diskfs_readonly_changed (1)`, `(0)`, `(1)`, with `diskfs_readonly` set
to the matching value before each call, returns three times (no failed
assertion) and ends with the disk image protected read-only (no write
permission) and `sblock_dirty == 0`. -/
theorem mode_change_idempotence (D : Decls) (s : State) :
    ∃ s1 s2 s3, change_readonly D 1 s = .returned s1 ∧ change_readonly D 0 s1 = .returned s2
      ∧ change_readonly D 1 s2 = .returned s3
      ∧ s3.disk_image_prot = VM_PROT_READ ∧ s3.disk_image_prot &&& VM_PROT_WRITE = 0
      ∧ s3.sblock_dirty = 0 := by
  have hmid : ∀ t : State, ∃ t', change_readonly D 0 t = .returned t' := by
    intro t
    simp only [change_readonly, diskfs_readonly_changed, diskfs_set_hypermetadata,
      ne_eq, not_true_eq_false, if_false]
    refine ⟨_, copy_sblock_dirty D _ ?_ ?_⟩
    · simp only [diskfs_set_hypermetadata_clean, ne_eq, not_true_eq_false, false_and, if_false]
      rw [(csum_step_frame D _).2.1]
      simp
    · simp only [diskfs_set_hypermetadata_clean, ne_eq, not_true_eq_false, false_and, if_false]
      rw [(csum_step_frame D _).2.2.1]
      split_ifs <;> rfl
  have h1 : ∀ t : State, ∃ t', change_readonly D 1 t = .returned t'
      ∧ t'.disk_image_prot = VM_PROT_READ ∧ t'.sblock_dirty = 0 := by
    intro t
    refine ⟨(change_readonly D 1 t).state, ?_, ?_, ?_⟩ <;>
      simp [change_readonly, diskfs_readonly_changed, Outcome.state, VM_PROT_READ]
  obtain ⟨s1, e1, -, -⟩ := h1 s
  obtain ⟨s2, e2⟩ := hmid s1
  obtain ⟨s3, e3, p3, d3⟩ := h1 s2
  refine ⟨s1, s2, s3, e1, e2, e3, p3, ?_, d3⟩
  rw [p3]
  decide

/-! ## `get_hypermetadata` writes nothing (C7) -/

/-- C7: if the superblock region of the disk image at `SBOFF` has `fs_magic`
different from `FS_MAGIC`, `get_hypermetadata` ends in `exit (1)` after printing
the bad-magic message, with the disk image, `sblock_dirty` and `csum_dirty`
unchanged; and on every path, from every state, `get_hypermetadata` leaves every
byte of the disk image unchanged, writes nothing to the device and records no
poke. -/
theorem get_hypermetadata_bad_magic (D : Decls) (hD : D.WF) (s : State)
    (hm : getf D (at_offset s.disk_image D.SBOFF) .fs_magic ≠ D.FS_MAGIC) :
    (∃ s', get_hypermetadata D s = .exited s' ∧ (∀ a, s'.disk_image a = s.disk_image a)
        ∧ s'.sblock_dirty = s.sblock_dirty ∧ s'.csum_dirty = s.csum_dirty
        ∧ s'.log = Msg.bad_magic :: s.log)
      ∧ ∀ t : State, (∀ a, (get_hypermetadata D t).state.disk_image a = t.disk_image a)
          ∧ (get_hypermetadata D t).state.device = t.device
          ∧ (get_hypermetadata D t).state.pokes = t.pokes
          ∧ (get_hypermetadata D t).state.dev_writes = t.dev_writes := by
  constructor
  · have hm' : getf D (get_hypermetadata_load D s).sblock .fs_magic ≠ D.FS_MAGIC := by
      rw [load_getf hD]
      exact hm
    refine ⟨(get_hypermetadata_load D s).say .bad_magic, ?_, ?_, rfl, rfl, rfl⟩
    · simp [get_hypermetadata, get_hypermetadata_check, hm', Outcome.bind]
    · intro a
      rfl
  · intro t
    obtain ⟨f1, -, -, f4, f5, f6⟩ := get_hypermetadata_state_frame D t
    exact ⟨fun a => by rw [f1], f4, f5, f6⟩

/-- C7 at the volume with magic number 0x011955, with both dirty flags set
before the call. -/
theorem get_hypermetadata_bad_magic_witness :
    getf bsd44 (at_offset (mk_state bad_magic_volume 0 2 2048).disk_image bsd44.SBOFF) .fs_magic
        ≠ bsd44.FS_MAGIC
      ∧ ∃ s', get_hypermetadata bsd44
            { mk_state bad_magic_volume 0 2 2048 with sblock_dirty := 1, csum_dirty := 1 }
          = .exited s'
        ∧ (∀ a, s'.disk_image a = bad_magic_volume a)
        ∧ s'.sblock_dirty = 1 ∧ s'.csum_dirty = 1 ∧ s'.log = [Msg.bad_magic] :=
  ⟨by decide,
    (get_hypermetadata_bad_magic bsd44 bsd44_WF
      { mk_state bad_magic_volume 0 2 2048 with sblock_dirty := 1, csum_dirty := 1 }
      (by decide)).1⟩

/-! ## Loading a superblock with a valid magic number and block size (C8) -/

/-- C9 fails on the code: the volume whose `fs_bsize` member holds -4096 passes
every check (the comparison `fs_bsize < sizeof (struct fs)` is unsigned, and so
is `__vm_page_size <= fs_bsize`), `get_hypermetadata` returns normally, and the
loaded record has `fs_bsize == -4096`: neither `0 < fs_bsize` nor
`fs_bsize >= sizeof (struct fs)` holds. -/
theorem negative_block_size_accepted :
    getf bsd44 (at_offset negative_bsize_volume bsd44.SBOFF) .fs_bsize = -4096
      ∧ (get_hypermetadata bsd44 (mk_state negative_bsize_volume 1 2 2048)).ending = .returned
      ∧ getf bsd44 (get_hypermetadata bsd44 (mk_state negative_bsize_volume 1 2 2048)).state.sblock
          .fs_bsize = -4096
      ∧ ¬ 0 < getf bsd44
          (get_hypermetadata bsd44 (mk_state negative_bsize_volume 1 2 2048)).state.sblock .fs_bsize
      ∧ ¬ (bsd44.sizeof_fs : Int) ≤ getf bsd44
          (get_hypermetadata bsd44 (mk_state negative_bsize_volume 1 2 2048)).state.sblock
          .fs_bsize := by
  decide

/-! ## The capacity check (C10) -/

/-- C10 fails on the code: the superblock claims 1048576 fragments of 4096
bytes (4 GiB) on a device of 2048 blocks of 512 bytes (1 MiB); the product
`fs_size * fs_fsize` wraps around to 0 in `long` arithmetic, the comparison of
line 141 finds the device large enough, and `get_hypermetadata` returns normally
although the exact device capacity is smaller than the exact filesystem size. -/
theorem capacity_check_wraps :
    (get_hypermetadata bsd44 (mk_state overclaiming_volume 1 2 2048)).ending = .returned
      ∧ fs_bytes bsd44 (get_hypermetadata bsd44 (mk_state overclaiming_volume 1 2 2048)).state = 0
      ∧ (get_hypermetadata bsd44 (mk_state overclaiming_volume 1 2 2048)).state.diskfs_device_size
            * 2 ^ (get_hypermetadata bsd44
                (mk_state overclaiming_volume 1 2 2048)).state.diskfs_log2_device_block_size
          = 1048576
      ∧ getf bsd44 (get_hypermetadata bsd44 (mk_state overclaiming_volume 1 2 2048)).state.sblock
            .fs_size
          * getf bsd44
              (get_hypermetadata bsd44 (mk_state overclaiming_volume 1 2 2048)).state.sblock
              .fs_fsize
          = 4294967296
      ∧ (get_hypermetadata bsd44 (mk_state overclaiming_volume 1 2 2048)).state.diskfs_device_size
            * 2 ^ (get_hypermetadata bsd44
                (mk_state overclaiming_volume 1 2 2048)).state.diskfs_log2_device_block_size
          < getf bsd44
              (get_hypermetadata bsd44 (mk_state overclaiming_volume 1 2 2048)).state.sblock
              .fs_size
            * getf bsd44
                (get_hypermetadata bsd44 (mk_state overclaiming_volume 1 2 2048)).state.sblock
                .fs_fsize := by
  decide

/-! ## Errors of the csum write-back (C11) -/

/-- C11 fails on the code: with `csum_dirty` set, a device read that succeeds
and a device write that returns error 5, `diskfs_set_hypermetadata` issues both
operations, returns, and `csum_dirty` is 0: the result of
`diskfs_device_write_sync` is not looked at.  (When the read fails, `csum_dirty`
stays set, as the claim says.) -/
theorem csum_dirty_cleared_after_failed_write :
    csum_dirty_write_fails.csum_dirty ≠ 0
      ∧ csum_dirty_write_fails.dev_read_err csum_dirty_write_fails.dev_ops = 0
      ∧ csum_dirty_write_fails.dev_write_err (csum_dirty_write_fails.dev_ops + 1) = 5
      ∧ (diskfs_set_hypermetadata bsd44 1 0 csum_dirty_write_fails).ending = .returned
      ∧ (diskfs_set_hypermetadata bsd44 1 0 csum_dirty_write_fails).state.dev_ops
          = csum_dirty_write_fails.dev_ops + 2
      ∧ (diskfs_set_hypermetadata bsd44 1 0 csum_dirty_write_fails).state.csum_dirty = 0
      ∧ csum_dirty_read_fails.csum_dirty ≠ 0
      ∧ csum_dirty_read_fails.dev_read_err csum_dirty_read_fails.dev_ops = 5
      ∧ (diskfs_set_hypermetadata bsd44 1 0 csum_dirty_read_fails).ending = .returned
      ∧ (diskfs_set_hypermetadata bsd44 1 0 csum_dirty_read_fails).state.csum_dirty = 1 := by
  decide

/-! ## The clean flag after `copy_sblock` (C15) -/

/-- C15: on a writable mount (`diskfs_readonly == 0`) `copy_sblock` returns with
the in-core clean flag dirty; if the in-core flag was clean on entry,
`sblock_dirty` is set on return; hence, when `copy_sblock` has stored a
superblock whose clean bit is set, the in-core record is dirty and pending
write-back.  On a read-only mount, however `copy_sblock` ends, the in-core
record, and so its clean flag, is unchanged. -/
theorem copy_sblock_clean_flag (D : Decls) (hD : D.WF) (s : State) :
    (s.diskfs_readonly = 0 →
        ∃ s', copy_sblock D s = .returned s' ∧ getf D s'.sblock .fs_clean = 0
          ∧ (getf D s.sblock .fs_clean ≠ 0 → s'.sblock_dirty = 1)
          ∧ (s.sblock_dirty ≠ 0 →
              getf D (at_offset s'.disk_image D.SBOFF) .fs_clean ≠ 0 →
              getf D s'.sblock .fs_clean = 0 ∧ s'.sblock_dirty = 1))
      ∧ (s.diskfs_readonly ≠ 0 →
          (copy_sblock D s).state.sblock = s.sblock
            ∧ getf D (copy_sblock D s).state.sblock .fs_clean = getf D s.sblock .fs_clean) := by
  have hn1 : Fld.fs_clean ≠ Fld.fs_nrpos := by decide
  have hn2 : Fld.fs_clean ≠ Fld.fs_maxfilesize := by decide
  have hn3 : Fld.fs_clean ≠ Fld.fs_qbmask := by decide
  have hn4 : Fld.fs_clean ≠ Fld.fs_qfmask := by decide
  constructor
  · intro hro
    by_cases hd : s.sblock_dirty = 0
    · by_cases hc : getf D s.sblock .fs_clean = 0
      · refine ⟨s, ?_, hc, fun h => absurd hc h, fun h => absurd hd h⟩
        simp [copy_sblock, copy_sblock_write, copy_sblock_reflip, hd, hro, hc, Outcome.bind]
      · refine ⟨{ s with sblock := setf D s.sblock .fs_clean 0, sblock_dirty := 1 }, ?_, ?_,
          fun _ => rfl, fun h => absurd hd h⟩
        · simp [copy_sblock, copy_sblock_write, copy_sblock_reflip, hd, hro, hc, Outcome.bind]
        · simp only [getf_setf_same, Fld.type, wrap_char_zero]
    · rw [copy_sblock_dirty D s hd hro]
      by_cases hc : getf D s.sblock .fs_clean = 0
      · refine ⟨_, rfl, ?_, fun h => absurd hc h, ?_⟩
        · simp [copy_sblock_reflip, hro, hc]
        · intro _ hk
          rw [copy_sblock_reflip_disk_image] at hk
          simp only [getf_at_offset_bcopy hD, getf_copy_sblock_image hD _ _ hn1 hn2 hn3 hn4] at hk
          exact absurd hc hk
      · have e : copy_sblock_reflip D
            { s with disk_image := bcopy (copy_sblock_image D s) 0 s.disk_image D.SBOFF D.SBSIZE,
                     pokes := (D.SBOFF, D.SBSIZE) :: s.pokes,
                     sblock_dirty := 0 }
            = { s with disk_image := bcopy (copy_sblock_image D s) 0 s.disk_image D.SBOFF D.SBSIZE,
                       pokes := (D.SBOFF, D.SBSIZE) :: s.pokes,
                       sblock := setf D s.sblock .fs_clean 0, sblock_dirty := 1 } := by
          simp [copy_sblock_reflip, hro, hc]
        rw [e]
        have hz : getf D (setf D s.sblock .fs_clean 0) .fs_clean = 0 := by
          simp only [getf_setf_same, Fld.type, wrap_char_zero]
        exact ⟨_, rfl, hz, fun _ => rfl, fun _ _ => ⟨hz, rfl⟩⟩
  · intro hro
    have e : (copy_sblock D s).state.sblock = s.sblock := by
      by_cases hd : s.sblock_dirty = 0
      · simp [copy_sblock, copy_sblock_write, copy_sblock_reflip, hd, hro, Outcome.bind,
          Outcome.state]
      · simp [copy_sblock, copy_sblock_write, hd, hro, Outcome.bind, Outcome.state]
    exact ⟨e, by rw [e]⟩

/-- C15 at the clean volume right after the load (writable, in-core flag clean)
and at the same volume switched to read-only. -/
theorem copy_sblock_clean_flag_witness :
    clean_loaded.diskfs_readonly = 0 ∧ getf bsd44 clean_loaded.sblock .fs_clean ≠ 0
      ∧ (∃ s', copy_sblock bsd44 clean_loaded = .returned s'
          ∧ getf bsd44 s'.sblock .fs_clean = 0 ∧ s'.sblock_dirty = 1)
      ∧ clean_mounted_readonly.diskfs_readonly ≠ 0
      ∧ (copy_sblock bsd44 clean_mounted_readonly).state.sblock = clean_mounted_readonly.sblock := by
  obtain ⟨s', h1, h2, h3, -⟩ :=
    (copy_sblock_clean_flag bsd44 bsd44_WF clean_loaded).1 (by decide)
  exact ⟨by decide, by decide, ⟨s', h1, h2, h3 (by decide)⟩, by decide,
    ((copy_sblock_clean_flag bsd44 bsd44_WF clean_mounted_readonly).2 (by decide)).1⟩

/-! ## `copy_sblock` on a superblock that is not dirty, or read-only (C16) -/

/-- C16: when `sblock_dirty` is clear on entry, `copy_sblock` returns with every
byte of the disk image unchanged and without a call of `record_poke` (and
without touching the device); when `sblock_dirty` is set on entry while
`diskfs_readonly` is set, `copy_sblock` fails its assertion, in the state it was
entered in. -/
theorem copy_sblock_not_dirty (D : Decls) (s : State) :
    (s.sblock_dirty = 0 →
        ∃ s', copy_sblock D s = .returned s' ∧ (∀ a, s'.disk_image a = s.disk_image a)
          ∧ s'.pokes = s.pokes ∧ s'.device = s.device ∧ s'.dev_writes = s.dev_writes)
      ∧ (s.sblock_dirty ≠ 0 → s.diskfs_readonly ≠ 0 → copy_sblock D s = .assert_failed s) := by
  constructor
  · intro hd
    refine ⟨copy_sblock_reflip D s, ?_, ?_, ?_, ?_, ?_⟩
    · simp [copy_sblock, copy_sblock_write, hd, Outcome.bind]
    all_goals
      unfold copy_sblock_reflip
      split_ifs <;> simp
  · intro hd hro
    simp [copy_sblock, copy_sblock_write, hd, hro, Outcome.bind]

/-- C16 at the clean volume mounted writable (superblock not dirty) and at the
volume switched to read-only with the superblock marked dirty. -/
theorem copy_sblock_not_dirty_witness :
    clean_mounted.sblock_dirty = 0
      ∧ (∃ s', copy_sblock bsd44 clean_mounted = .returned s'
          ∧ (∀ a, s'.disk_image a = clean_mounted.disk_image a)
          ∧ s'.pokes = clean_mounted.pokes ∧ s'.device = clean_mounted.device
          ∧ s'.dev_writes = clean_mounted.dev_writes)
      ∧ copy_sblock bsd44 { clean_mounted_readonly with sblock_dirty := 1 }
          = .assert_failed { clean_mounted_readonly with sblock_dirty := 1 } :=
  ⟨by decide, (copy_sblock_not_dirty bsd44 clean_mounted).1 (by decide),
    (copy_sblock_not_dirty bsd44 { clean_mounted_readonly with sblock_dirty := 1 }).2
      (by decide) (by decide)⟩

/-! ## When the clean flag is set, and when it never reaches the disk (C12) -/

theorem getf_strcpy {D : Decls} (hD : D.WF) (m : Mem) (f : Fld) :
    getf D (strcpy m D.fs_fsmnt hurd_root) f = getf D m f := by
  apply getf_congr
  intro i hi
  have h1 := hD.fsmnt_disj f
  have h2 := hD.fsmnt_len
  have hn : ¬ (D.fs_fsmnt ≤ D.off f + i ∧ D.off f + i < D.fs_fsmnt + (hurd_root.length + 1)) := by
    unfold RangesApart at h1
    simp only [hurd_root, List.length_cons, List.length_nil]
    omega
  simp only [strcpy, hn, if_false]

/-- With the in-core clean flag dirty, `copy_sblock` leaves it so and stores, if
anything, a superblock whose clean bit is clear. -/
theorem copy_keeps_dirty {D : Decls} (hD : D.WF) (s : State)
    (hc : getf D s.sblock .fs_clean = 0) :
    (copy_sblock D s).state.ufs_clean = s.ufs_clean
      ∧ getf D (copy_sblock D s).state.sblock .fs_clean = 0
      ∧ (((copy_sblock D s).state.disk_image = s.disk_image
          ∧ (copy_sblock D s).state.pokes = s.pokes)
        ∨ getf D (at_offset (copy_sblock D s).state.disk_image D.SBOFF) .fs_clean = 0) := by
  by_cases hd : s.sblock_dirty = 0
  · have e : copy_sblock D s = .returned s := by
      simp [copy_sblock, copy_sblock_write, copy_sblock_reflip, hd, hc, Outcome.bind]
    rw [e]
    exact ⟨rfl, hc, Or.inl ⟨rfl, rfl⟩⟩
  · by_cases hro : s.diskfs_readonly = 0
    · have e : copy_sblock D s = .returned
          { s with disk_image := bcopy (copy_sblock_image D s) 0 s.disk_image D.SBOFF D.SBSIZE,
                   pokes := (D.SBOFF, D.SBSIZE) :: s.pokes,
                   sblock_dirty := 0 } := by
        rw [copy_sblock_dirty D s hd hro]
        simp [copy_sblock_reflip, hc]
      rw [e]
      refine ⟨rfl, hc, Or.inr ?_⟩
      simp only [Outcome.state, getf_at_offset_bcopy hD]
      rw [getf_copy_sblock_image hD _ _ (by decide) (by decide) (by decide) (by decide)]
      exact hc
    · have e : copy_sblock D s = .assert_failed s := by
        simp [copy_sblock, copy_sblock_write, hd, hro, Outcome.bind]
      rw [e]
      exact ⟨rfl, hc, Or.inl ⟨rfl, rfl⟩⟩

/-- With the snapshot not clean, `diskfs_set_hypermetadata` does not set the
clean flag, whatever `clean` is. -/
theorem sync_keeps_dirty {D : Decls} (hD : D.WF) (s : State) (wait clean : Int)
    (hu : s.ufs_clean = 0) (hc : getf D s.sblock .fs_clean = 0) :
    (diskfs_set_hypermetadata D wait clean s).state.ufs_clean = 0
      ∧ getf D (diskfs_set_hypermetadata D wait clean s).state.sblock .fs_clean = 0
      ∧ (((diskfs_set_hypermetadata D wait clean s).state.disk_image = s.disk_image
          ∧ (diskfs_set_hypermetadata D wait clean s).state.pokes = s.pokes)
        ∨ getf D (at_offset (diskfs_set_hypermetadata D wait clean s).state.disk_image D.SBOFF)
            .fs_clean = 0) := by
  obtain ⟨f1, -, -, f4, -, f6, -, f8⟩ := csum_step_frame D s
  have e : diskfs_set_hypermetadata_clean D clean (diskfs_set_hypermetadata_csum D s)
      = diskfs_set_hypermetadata_csum D s := by
    simp [diskfs_set_hypermetadata_clean, f4, hu]
  unfold diskfs_set_hypermetadata
  rw [e]
  obtain ⟨k1, k2, k3⟩ := copy_keeps_dirty hD (diskfs_set_hypermetadata_csum D s) (by rw [f1]; exact hc)
  rw [f4] at k1
  rw [f6, f8] at k3
  exact ⟨k1.trans hu, k2, k3⟩

theorem readonly_changed_keeps_dirty {D : Decls} (hD : D.WF) (s : State) (r : Int)
    (hu : s.ufs_clean = 0) (hc : getf D s.sblock .fs_clean = 0) :
    (diskfs_readonly_changed D r s).state.ufs_clean = 0
      ∧ getf D (diskfs_readonly_changed D r s).state.sblock .fs_clean = 0
      ∧ (((diskfs_readonly_changed D r s).state.disk_image = s.disk_image
          ∧ (diskfs_readonly_changed D r s).state.pokes = s.pokes)
        ∨ getf D (at_offset (diskfs_readonly_changed D r s).state.disk_image D.SBOFF)
            .fs_clean = 0) := by
  by_cases hr : r = 0
  · subst hr
    have hs := getf_strcpy hD s.sblock .fs_clean
    simp only [diskfs_readonly_changed, ne_eq, not_true_eq_false, if_false, hs, hc, State.say]
    exact sync_keeps_dirty hD _ 1 0 hu (by simpa only [hs] using hc)
  · have e : diskfs_readonly_changed D r s = .returned
        { s with disk_image_prot := VM_PROT_READ ||| 0, sblock_dirty := 0 } := by
      simp [diskfs_readonly_changed, hr]
    rw [e]
    exact ⟨hu, hc, Or.inl ⟨rfl, rfl⟩⟩

/-- One call keeps the snapshot and the in-core flag dirty; what it stores in
the disk image, if anything, has the clean bit clear. -/
theorem call_keeps_dirty {D : Decls} (hD : D.WF) (c : Call) (s : State)
    (hu : s.ufs_clean = 0) (hc : getf D s.sblock .fs_clean = 0) :
    (c.run D s).state.ufs_clean = 0
      ∧ getf D (c.run D s).state.sblock .fs_clean = 0
      ∧ (((c.run D s).state.disk_image = s.disk_image ∧ (c.run D s).state.pokes = s.pokes)
        ∨ getf D (at_offset (c.run D s).state.disk_image D.SBOFF) .fs_clean = 0) := by
  cases c with
  | sync wait clean => exact sync_keeps_dirty hD s wait clean hu hc
  | copy =>
    obtain ⟨k1, k2, k3⟩ := copy_keeps_dirty hD s hc
    exact ⟨k1.trans hu, k2, k3⟩
  | readonly_changed r => exact readonly_changed_keeps_dirty hD s r hu hc
  | mode_change r =>
    exact readonly_changed_keeps_dirty hD { s with diskfs_readonly := r } r hu hc

/-- Any sequence of calls keeps the snapshot and the in-core flag dirty; the disk
image is as at the start or holds a superblock with the clean bit clear. -/
theorem run_calls_keeps_dirty {D : Decls} (hD : D.WF) (cs : List Call) (s : State)
    (hu : s.ufs_clean = 0) (hc : getf D s.sblock .fs_clean = 0) :
    (run_calls D cs s).state.ufs_clean = 0
      ∧ getf D (run_calls D cs s).state.sblock .fs_clean = 0
      ∧ (((run_calls D cs s).state.disk_image = s.disk_image
          ∧ (run_calls D cs s).state.pokes = s.pokes)
        ∨ getf D (at_offset (run_calls D cs s).state.disk_image D.SBOFF) .fs_clean = 0) := by
  induction cs generalizing s with
  | nil => exact ⟨hu, hc, Or.inl ⟨rfl, rfl⟩⟩
  | cons c cs ih =>
    obtain ⟨k1, k2, k3⟩ := call_keeps_dirty hD c s hu hc
    simp only [run_calls]
    rcases bind_cases (c.run D s) (run_calls D cs) with ⟨t, ht, e⟩ | e
    · rw [e]
      rw [ht] at k1 k2 k3
      simp only [Outcome.state] at k1 k2 k3
      obtain ⟨j1, j2, j3⟩ := ih t k1 k2
      refine ⟨j1, j2, ?_⟩
      rcases j3 with j3 | j3
      · rcases k3 with k3 | k3
        · exact Or.inl ⟨j3.1.trans k3.1, j3.2.trans k3.2⟩
        · exact Or.inr (by rw [j3.1]; exact k3)
      · exact Or.inr j3
    · rw [e]
      exact ⟨k1, k2, k3⟩

/-- C12: `diskfs_set_hypermetadata (wait, clean)` hands to `copy_sblock` a record
whose clean flag went from dirty (0) to clean (1) if and only if `clean` is
requested, the mount-time snapshot `ufs_clean` is clean and the in-core flag is
dirty on entry; in that case `sblock_dirty` is set, otherwise record and
`sblock_dirty` are as on entry.  Consequently, when the snapshot is not clean
and the in-core flag is dirty, after any sequence of `diskfs_set_hypermetadata`,
`copy_sblock` and `diskfs_readonly_changed` calls (with or without the caller
changing `diskfs_readonly`) either nothing was stored (the disk image is as at
the start and no poke was recorded) or the disk image holds at `SBOFF` a
superblock with the clean bit clear, and snapshot and in-core flag are still
dirty. -/
theorem clean_flag_set_iff (D : Decls) (hD : D.WF) (s : State) (wait clean : Int) :
    diskfs_set_hypermetadata D wait clean s
        = copy_sblock D (diskfs_set_hypermetadata_clean D clean (diskfs_set_hypermetadata_csum D s))
      ∧ ((getf D s.sblock .fs_clean = 0
            ∧ getf D (diskfs_set_hypermetadata_clean D clean
                (diskfs_set_hypermetadata_csum D s)).sblock .fs_clean = 1)
          ↔ (clean ≠ 0 ∧ s.ufs_clean ≠ 0 ∧ getf D s.sblock .fs_clean = 0))
      ∧ ((clean ≠ 0 ∧ s.ufs_clean ≠ 0 ∧ getf D s.sblock .fs_clean = 0) →
          (diskfs_set_hypermetadata_clean D clean
            (diskfs_set_hypermetadata_csum D s)).sblock_dirty = 1)
      ∧ (¬ (clean ≠ 0 ∧ s.ufs_clean ≠ 0 ∧ getf D s.sblock .fs_clean = 0) →
          (diskfs_set_hypermetadata_clean D clean
              (diskfs_set_hypermetadata_csum D s)).sblock = s.sblock
            ∧ (diskfs_set_hypermetadata_clean D clean
                (diskfs_set_hypermetadata_csum D s)).sblock_dirty = s.sblock_dirty)
      ∧ (s.ufs_clean = 0 → getf D s.sblock .fs_clean = 0 →
          ∀ cs : List Call,
            (run_calls D cs s).state.ufs_clean = 0
              ∧ getf D (run_calls D cs s).state.sblock .fs_clean = 0
              ∧ (((run_calls D cs s).state.disk_image = s.disk_image
                  ∧ (run_calls D cs s).state.pokes = s.pokes)
                ∨ getf D (at_offset (run_calls D cs s).state.disk_image D.SBOFF)
                    .fs_clean = 0)) := by
  obtain ⟨f1, f2, -, f4, -⟩ := csum_step_frame D s
  have hyes : (clean ≠ 0 ∧ s.ufs_clean ≠ 0 ∧ getf D s.sblock .fs_clean = 0) →
      getf D (diskfs_set_hypermetadata_clean D clean
          (diskfs_set_hypermetadata_csum D s)).sblock .fs_clean = 1
        ∧ (diskfs_set_hypermetadata_clean D clean
          (diskfs_set_hypermetadata_csum D s)).sblock_dirty = 1 := by
    intro h
    have h' : clean ≠ 0 ∧ (diskfs_set_hypermetadata_csum D s).ufs_clean ≠ 0
        ∧ getf D (diskfs_set_hypermetadata_csum D s).sblock .fs_clean = 0 := by
      rw [f1, f4]
      exact h
    simp only [diskfs_set_hypermetadata_clean, if_pos h', getf_setf_same, Fld.type,
      wrap_char_one, and_self]
  have hno : ¬ (clean ≠ 0 ∧ s.ufs_clean ≠ 0 ∧ getf D s.sblock .fs_clean = 0) →
      diskfs_set_hypermetadata_clean D clean (diskfs_set_hypermetadata_csum D s)
        = diskfs_set_hypermetadata_csum D s := by
    intro h
    have h' : ¬ (clean ≠ 0 ∧ (diskfs_set_hypermetadata_csum D s).ufs_clean ≠ 0
        ∧ getf D (diskfs_set_hypermetadata_csum D s).sblock .fs_clean = 0) := by
      rw [f1, f4]
      exact h
    simp only [diskfs_set_hypermetadata_clean, if_neg h']
  refine ⟨rfl, ⟨?_, ?_⟩, fun h => (hyes h).2, ?_, ?_⟩
  · rintro ⟨h0, h1⟩
    by_contra hcon
    rw [hno hcon, f1, h0] at h1
    exact absurd h1 (by decide)
  · intro h
    exact ⟨h.2.2, (hyes h).1⟩
  · intro h
    rw [hno h]
    exact ⟨f1, f2⟩
  · intro hu hc cs
    exact run_calls_keeps_dirty hD cs s hu hc

/-- C12 at the clean volume mounted writable (the flag is set by a call with
`clean = 1`) and at the unclean volume, made writable, synchronised with
`clean = 1` twice and made read-only again (nothing clean reaches the disk). -/
theorem clean_flag_set_iff_witness :
    getf bsd44 (diskfs_set_hypermetadata_clean bsd44 1
        (diskfs_set_hypermetadata_csum bsd44 clean_mounted)).sblock .fs_clean = 1
      ∧ dirty_loaded.ufs_clean = 0 ∧ getf bsd44 dirty_loaded.sblock .fs_clean = 0
      ∧ (((run_calls bsd44 [.mode_change 0, .sync 1 1, .copy, .sync 0 1, .mode_change 1]
              dirty_loaded).state.disk_image = dirty_loaded.disk_image
          ∧ (run_calls bsd44 [.mode_change 0, .sync 1 1, .copy, .sync 0 1, .mode_change 1]
              dirty_loaded).state.pokes = dirty_loaded.pokes)
        ∨ getf bsd44 (at_offset (run_calls bsd44
            [.mode_change 0, .sync 1 1, .copy, .sync 0 1, .mode_change 1]
            dirty_loaded).state.disk_image bsd44.SBOFF) .fs_clean = 0) :=
  ⟨((clean_flag_set_iff bsd44 bsd44_WF clean_mounted 1 1).2.1.2
      ⟨by decide, by decide, by decide⟩).2,
    by decide, by decide,
    ((clean_flag_set_iff bsd44 bsd44_WF dirty_loaded 0 0).2.2.2.2 (by decide) (by decide)
      [.mode_change 0, .sync 1 1, .copy, .sync 0 1, .mode_change 1]).2.2⟩

/-! ## The transition to writable mode (C13) -/

/-- The bytes of the mount label lie outside every scalar member. -/
theorem label_outside {D : Decls} (hD : D.WF) (f : Fld) {i : Nat} (hi : i < 7) :
    D.fs_fsmnt + i < D.off f ∨ D.off f + f.type.size ≤ D.fs_fsmnt + i := by
  have h1 := hD.fsmnt_disj f
  have h2 := hD.fsmnt_len
  unfold RangesApart at h1
  omega

theorem copy_sblock_image_congr (D : Decls) {t u : State} (h1 : t.sblock = u.sblock)
    (h2 : t.oldformat = u.oldformat) : copy_sblock_image D t = copy_sblock_image D u := by
  simp only [copy_sblock_image, h1, h2]

/-- The superblock `copy_sblock` writes carries the mount label of the in-core
record. -/
theorem copy_sblock_image_label {D : Decls} (hD : D.WF) (s : State) {i : Nat} (hi : i < 7) :
    copy_sblock_image D s (D.fs_fsmnt + i) = s.sblock (D.fs_fsmnt + i) := by
  have h1 := hD.fsmnt_inside
  have h2 := hD.fsmnt_len
  have h3 := hD.size_le
  have hb : bcopy s.sblock 0 (fun _ => 0) 0 D.SBSIZE (D.fs_fsmnt + i) = s.sblock (D.fs_fsmnt + i) := by
    rw [bcopy_inside _ _ _ _ _ _ (by omega)]
    congr 1
    omega
  unfold copy_sblock_image
  split_ifs <;>
    simp only [setf_outside D _ _ _ _ (label_outside hD _ hi), hb]

/-- A synchronisation without the clean request, on a writable mount with a
dirty superblock whose clean flag is clear: the superblock is written as it is
and is no longer dirty. -/
theorem sync_writes_dirty (D : Decls) (u : State) (w : Int)
    (hro : u.diskfs_readonly = 0) (hd : u.sblock_dirty ≠ 0)
    (hc : getf D u.sblock .fs_clean = 0) :
    ∃ s', diskfs_set_hypermetadata D w 0 u = .returned s' ∧ s'.sblock = u.sblock
      ∧ s'.sblock_dirty = 0 ∧ s'.disk_image_prot = u.disk_image_prot
      ∧ s'.disk_image = bcopy (copy_sblock_image D u) 0 u.disk_image D.SBOFF D.SBSIZE := by
  obtain ⟨f1, f2, f3, -, f5, f6, f7, -⟩ := csum_step_frame D u
  have e : diskfs_set_hypermetadata_clean D 0 (diskfs_set_hypermetadata_csum D u)
      = diskfs_set_hypermetadata_csum D u := by
    simp [diskfs_set_hypermetadata_clean]
  unfold diskfs_set_hypermetadata
  rw [e, copy_sblock_dirty D _ (by rw [f2]; exact hd) (by rw [f3]; exact hro)]
  have hflip : ∀ t : State, getf D t.sblock .fs_clean = 0 → copy_sblock_reflip D t = t := by
    intro t ht
    simp [copy_sblock_reflip, ht]
  rw [hflip _ (by simpa only [f1] using hc)]
  refine ⟨_, rfl, f1, rfl, f7, ?_⟩
  simp only [f6, copy_sblock_image_congr D f1 f5]

/-- C13: for every state with `diskfs_readonly == 0`,
`diskfs_readonly_changed (0)` returns with the disk image mapped read-write, the
in-core clean flag dirty, `sblock_dirty == 0`, and the superblock stored at
`SBOFF` in the disk image carrying the mount label "Hurd /" (with its
terminating zero) and a clean bit of 0, whether the record claimed clean or
dirty on entry. -/
theorem readonly_changed_writable (D : Decls) (hD : D.WF) (s : State)
    (hro : s.diskfs_readonly = 0) :
    ∃ s', diskfs_readonly_changed D 0 s = .returned s'
      ∧ s'.disk_image_prot = VM_PROT_READ ||| VM_PROT_WRITE
      ∧ getf D s'.sblock .fs_clean = 0 ∧ s'.sblock_dirty = 0
      ∧ (∀ i, i < hurd_root.length + 1 →
          s'.disk_image (D.SBOFF + (D.fs_fsmnt + i)) = (hurd_root ++ [0]).getD i 0)
      ∧ getf D (at_offset s'.disk_image D.SBOFF) .fs_clean = 0 := by
  have hlabel : ∀ i, i < hurd_root.length + 1 →
      strcpy s.sblock D.fs_fsmnt hurd_root (D.fs_fsmnt + i) = (hurd_root ++ [0]).getD i 0 := by
    intro i hi
    have hin : D.fs_fsmnt ≤ D.fs_fsmnt + i ∧ D.fs_fsmnt + i < D.fs_fsmnt + (hurd_root.length + 1) := by
      omega
    simp only [strcpy, hin, and_self, if_true, Nat.add_sub_cancel_left]
  -- the record after the label and the clean flag have been set
  obtain ⟨sb, hsb, hsbc, hsbl⟩ : ∃ sb : Mem,
      (∃ lg, diskfs_readonly_changed D 0 s = diskfs_set_hypermetadata D 1 0
        { s with disk_image_prot := VM_PROT_READ ||| VM_PROT_WRITE, sblock := sb,
                 log := lg, sblock_dirty := 1 })
      ∧ getf D sb .fs_clean = 0
      ∧ ∀ i, i < hurd_root.length + 1 → sb (D.fs_fsmnt + i) = (hurd_root ++ [0]).getD i 0 := by
    by_cases hc : getf D (strcpy s.sblock D.fs_fsmnt hurd_root) .fs_clean = 0
    · refine ⟨strcpy s.sblock D.fs_fsmnt hurd_root, ⟨Msg.uncleaned_now_writable :: s.log, ?_⟩,
        hc, hlabel⟩
      simp [diskfs_readonly_changed, hc, State.say]
    · refine ⟨setf D (strcpy s.sblock D.fs_fsmnt hurd_root) .fs_clean 0, ⟨s.log, ?_⟩, ?_, ?_⟩
      · simp [diskfs_readonly_changed, hc]
      · simp only [getf_setf_same, Fld.type, wrap_char_zero]
      · intro i hi
        have hi7 : i < 7 := by simpa [hurd_root] using hi
        rw [setf_outside D _ _ _ _ (label_outside hD _ hi7)]
        exact hlabel i hi
  obtain ⟨lg, hcall⟩ := hsb
  obtain ⟨s', e1, e2, e3, e4, e5⟩ := sync_writes_dirty D
    { s with disk_image_prot := VM_PROT_READ ||| VM_PROT_WRITE, sblock := sb,
             log := lg, sblock_dirty := 1 } 1 hro one_ne_zero hsbc
  refine ⟨s', hcall.trans e1, e4, ?_, e3, ?_, ?_⟩
  · rw [e2]
    exact hsbc
  · intro i hi
    have hi7 : i < 7 := by simpa [hurd_root] using hi
    have h1 := hD.fsmnt_inside
    have h2 := hD.fsmnt_len
    have h3 := hD.size_le
    rw [e5, bcopy_inside _ _ _ _ _ _ (by omega)]
    simp only [Nat.zero_add, Nat.add_sub_cancel_left]
    rw [copy_sblock_image_label hD _ hi7]
    exact hsbl i hi
  · rw [e5, getf_at_offset_bcopy hD,
      getf_copy_sblock_image hD _ _ (by decide) (by decide) (by decide) (by decide)]
    exact hsbc

/-- C13 at the clean volume right after the load (the record claims clean) and
at the unclean volume with the mount mode set to writable (the record claims
dirty). -/
theorem readonly_changed_writable_witness :
    clean_loaded.diskfs_readonly = 0 ∧ getf bsd44 clean_loaded.sblock .fs_clean = 1
      ∧ (∃ s', diskfs_readonly_changed bsd44 0 clean_loaded = .returned s'
          ∧ s'.disk_image_prot = VM_PROT_READ ||| VM_PROT_WRITE
          ∧ getf bsd44 s'.sblock .fs_clean = 0 ∧ s'.sblock_dirty = 0
          ∧ (∀ i, i < hurd_root.length + 1 →
              s'.disk_image (bsd44.SBOFF + (bsd44.fs_fsmnt + i)) = (hurd_root ++ [0]).getD i 0)
          ∧ getf bsd44 (at_offset s'.disk_image bsd44.SBOFF) .fs_clean = 0)
      ∧ getf bsd44 dirty_loaded.sblock .fs_clean = 0
      ∧ (∃ s', diskfs_readonly_changed bsd44 0 { dirty_loaded with diskfs_readonly := 0 }
            = .returned s'
          ∧ s'.disk_image_prot = VM_PROT_READ ||| VM_PROT_WRITE
          ∧ getf bsd44 s'.sblock .fs_clean = 0 ∧ s'.sblock_dirty = 0
          ∧ (∀ i, i < hurd_root.length + 1 →
              s'.disk_image (bsd44.SBOFF + (bsd44.fs_fsmnt + i)) = (hurd_root ++ [0]).getD i 0)
          ∧ getf bsd44 (at_offset s'.disk_image bsd44.SBOFF) .fs_clean = 0) :=
  ⟨by decide, by decide, readonly_changed_writable bsd44 bsd44_WF clean_loaded (by decide),
    by decide,
    readonly_changed_writable bsd44 bsd44_WF { dirty_loaded with diskfs_readonly := 0 } rfl⟩

/-! ## The symlink extension and the compatibility mode (C14) -/

theorem compat_mode_frame (D : Decls) (s : State) :
    (get_hypermetadata_clean D s).compat_mode = s.compat_mode
      ∧ (get_hypermetadata_oldfs D s).compat_mode = s.compat_mode
      ∧ (get_hypermetadata_symlink D s).compat_mode = s.compat_mode
      ∧ (get_hypermetadata_symlink D s).direct_symlink_extension
          = (if getf D s.sblock .fs_maxsymlinklen > 0 then 1 else 0) := by
  refine ⟨?_, ?_, ?_, ?_⟩
  · simp only [get_hypermetadata_clean, State.say]
    split_ifs <;> rfl
  · simp only [get_hypermetadata_oldfs]
    split_ifs <;> rfl
  · simp only [get_hypermetadata_symlink]
    split_ifs <;> rfl
  · simp only [get_hypermetadata_symlink]
    split_ifs <;> rfl

theorem csum_returned_compat {D : Decls} {s s' : State}
    (h : get_hypermetadata_csum D s = .returned s') :
    s'.compat_mode = s.compat_mode
      ∧ s'.direct_symlink_extension = s.direct_symlink_extension := by
  obtain ⟨-, -, rfl⟩ := csum_returned_eq h
  exact ⟨rfl, rfl⟩

/-- The symlink extension flag and the compatibility mode after a normal
return, in terms of the loaded record and the mode the caller asked for. -/
theorem get_hypermetadata_returned_compat {D : Decls} {s s' : State}
    (h : get_hypermetadata D s = .returned s') :
    s'.direct_symlink_extension = (if getf D s'.sblock .fs_maxsymlinklen > 0 then 1 else 0)
      ∧ s'.compat_mode
          = (if (getf D s'.sblock .fs_inodefmt = D.FS_44INODEFMT
                  ∨ s'.direct_symlink_extension ≠ 0) ∧ s.compat_mode = D.COMPAT_BSD42
              then D.COMPAT_BSD44 else s.compat_mode) := by
  obtain ⟨s5, -, h5, -, rfl⟩ := get_hypermetadata_returned h
  obtain ⟨-, c1, -⟩ := csum_returned h5
  obtain ⟨c2, c3⟩ := csum_returned_compat h5
  obtain ⟨-, -, y3, y4⟩ := compat_mode_frame D
    (get_hypermetadata_oldfs D (get_hypermetadata_clean D (get_hypermetadata_load D s)))
  obtain ⟨-, o2, -⟩ := compat_mode_frame D (get_hypermetadata_clean D (get_hypermetadata_load D s))
  obtain ⟨l1, -⟩ := compat_mode_frame D (get_hypermetadata_load D s)
  have y1 := (symlink_frame D
    (get_hypermetadata_oldfs D (get_hypermetadata_clean D (get_hypermetadata_load D s)))).1
  have hm : s5.compat_mode = s.compat_mode := by
    rw [c2, y3, o2, l1]
    rfl
  have hd : s5.direct_symlink_extension
      = (if getf D s5.sblock .fs_maxsymlinklen > 0 then 1 else 0) := by
    rw [c3, y4, c1, y1]
  constructor
  · have e1 : (get_hypermetadata_compat D s5).direct_symlink_extension
        = s5.direct_symlink_extension := by
      simp only [get_hypermetadata_compat, State.say]
      split_ifs <;> rfl
    rw [e1, (compat_frame D s5).1]
    exact hd
  · have e1 : (get_hypermetadata_compat D s5).direct_symlink_extension
        = s5.direct_symlink_extension := by
      simp only [get_hypermetadata_compat, State.say]
      split_ifs <;> rfl
    rw [e1, (compat_frame D s5).1, ← hm]
    simp only [get_hypermetadata_compat, State.say]
    split_ifs <;> rfl

/-- C14: after `get_hypermetadata` returns, `direct_symlink_extension` is 1 if
`fs_maxsymlinklen > 0` and 0 otherwise; when the record has
`fs_inodefmt == FS_44INODEFMT` or `direct_symlink_extension` is set,
`compat_mode` is not `COMPAT_BSD42`: a requested `COMPAT_BSD42` has become
`COMPAT_BSD44` and any other mode is as the caller set it; in every other case
`compat_mode` is as the caller set it. -/
theorem get_hypermetadata_symlink_compat (D : Decls) (hne : D.COMPAT_BSD42 ≠ D.COMPAT_BSD44)
    (s s' : State) (h : get_hypermetadata D s = .returned s') :
    (s'.direct_symlink_extension = 1 ↔ 0 < getf D s'.sblock .fs_maxsymlinklen)
      ∧ (s'.direct_symlink_extension = 1 ∨ s'.direct_symlink_extension = 0)
      ∧ ((getf D s'.sblock .fs_inodefmt = D.FS_44INODEFMT ∨ s'.direct_symlink_extension ≠ 0) →
          s'.compat_mode ≠ D.COMPAT_BSD42
            ∧ (s.compat_mode = D.COMPAT_BSD42 → s'.compat_mode = D.COMPAT_BSD44)
            ∧ (s.compat_mode ≠ D.COMPAT_BSD42 → s'.compat_mode = s.compat_mode))
      ∧ (¬ (getf D s'.sblock .fs_inodefmt = D.FS_44INODEFMT
            ∨ s'.direct_symlink_extension ≠ 0) →
          s'.compat_mode = s.compat_mode) := by
  obtain ⟨hd, hm⟩ := get_hypermetadata_returned_compat h
  refine ⟨?_, ?_, ?_, ?_⟩
  · by_cases hp : getf D s'.sblock .fs_maxsymlinklen > 0
    · rw [hd, if_pos hp]
      exact ⟨fun _ => hp, fun _ => rfl⟩
    · rw [hd, if_neg hp]
      exact ⟨fun h01 => absurd h01 (by decide), fun h0 => absurd h0 hp⟩
  · rw [hd]
    by_cases hp : getf D s'.sblock .fs_maxsymlinklen > 0
    · exact Or.inl (if_pos hp)
    · exact Or.inr (if_neg hp)
  · intro hf
    by_cases hc : s.compat_mode = D.COMPAT_BSD42
    · have e : s'.compat_mode = D.COMPAT_BSD44 := by
        rw [hm, if_pos ⟨hf, hc⟩]
      exact ⟨by rw [e]; exact hne.symm, fun _ => e, fun hx => absurd hc hx⟩
    · have e : s'.compat_mode = s.compat_mode := by
        rw [hm, if_neg (fun hx => hc hx.2)]
      exact ⟨by rw [e]; exact hc, fun hx => absurd hx hc, fun _ => e⟩
  · intro hf
    rw [hm, if_neg (fun hx => hf hx.1)]

/-- C14 at the volume with short symlinks, mounted with 4.2 compatibility
requested: the symlink extension is on and the mode has become 4.4. -/
theorem get_hypermetadata_symlink_compat_witness :
    bsd44.COMPAT_BSD42 ≠ bsd44.COMPAT_BSD44
      ∧ get_hypermetadata bsd44 (mk_state symlink_volume 0 1 2048)
          = .returned (get_hypermetadata bsd44 (mk_state symlink_volume 0 1 2048)).state
      ∧ (mk_state symlink_volume 0 1 2048).compat_mode = bsd44.COMPAT_BSD42
      ∧ (get_hypermetadata bsd44 (mk_state symlink_volume 0 1 2048)).state.direct_symlink_extension
          = 1
      ∧ (get_hypermetadata bsd44 (mk_state symlink_volume 0 1 2048)).state.compat_mode
          = bsd44.COMPAT_BSD44 :=
  ⟨by decide, rfl, by decide,
    (get_hypermetadata_symlink_compat bsd44 (by decide) (mk_state symlink_volume 0 1 2048) _
      rfl).1.2 (by decide),
    ((get_hypermetadata_symlink_compat bsd44 (by decide) (mk_state symlink_volume 0 1 2048) _
      rfl).2.2.1 (Or.inr (by decide))).2.1 (by decide)⟩

/-! ## The normalisation rules (C17) -/

theorem CType.encode_decode (t : CType) (n : Nat) (h : n < 256 ^ t.size) :
    t.encode (t.decode n) = n := by
  cases t <;> simp only [CType.encode, CType.decode, CType.size, CType.signed] at h ⊢ <;>
    norm_num at h ⊢ <;> (try split_ifs) <;> omega

/-- Reading a member gives a value of its type: converting it again changes
nothing. -/
theorem wrap_getf (D : Decls) (m : Mem) (f : Fld) : f.type.wrap (getf D m f) = getf D m f := by
  simp only [CType.wrap, getf, load, CType.encode_decode _ _ (loadLE_lt m _ _)]

theorem loadLE_byte (m : Mem) (a w k : Nat) (h : k < w) :
    loadLE m a w / 256 ^ k % 256 = (m (a + k)).val := by
  induction w generalizing a k with
  | zero => omega
  | succ w ih =>
    have hb := (m a).isLt
    cases k with
    | zero =>
      simp only [loadLE, Nat.pow_zero, Nat.div_one, Nat.add_zero]
      omega
    | succ k =>
      have hk := ih (a + 1) k (by omega)
      rw [show a + 1 + k = a + (k + 1) by omega] at hk
      rw [← hk]
      simp only [loadLE]
      rw [Nat.pow_succ, Nat.mul_comm (256 ^ k) 256, ← Nat.div_div_eq_div_mul,
        Nat.add_mul_div_left _ _ (by decide : 0 < 256), Nat.div_eq_of_lt hb, Nat.zero_add]

theorem storeLE_loadLE_self (m : Mem) (a w : Nat) : storeLE m a w (loadLE m a w) = m := by
  funext x
  by_cases hx : a ≤ x ∧ x < a + w
  · simp only [storeLE, hx, and_self, if_true]
    apply Fin.ext
    have := loadLE_byte m a w (x - a) (by omega)
    rw [show a + (x - a) = x by omega] at this
    simpa [byteOf] using this
  · simp only [storeLE, hx, if_false]

/-- Assigning to a member the value it holds changes nothing. -/
theorem setf_getf_self (D : Decls) (m : Mem) (f : Fld) : setf D m f (getf D m f) = m := by
  simp only [setf, store, getf, load, CType.encode_decode _ _ (loadLE_lt m _ _),
    storeLE_loadLE_self]

/-- Reading a member after an assignment to a member. -/
theorem getf_setf {D : Decls} (hD : D.WF) (m : Mem) (f g : Fld) (v : Int) :
    getf D (setf D m f v) g = if f = g then f.type.wrap v else getf D m g := by
  by_cases h : f = g
  · subst h
    rw [if_pos rfl, getf_setf_same]
  · rw [if_neg h, getf_setf_ne hD _ _ h]

/-- The three geometry rules, member by member. -/
theorem geometry_values {D : Decls} (hD : D.WF) (sb : Mem) :
    getf D (get_hypermetadata_geometry D sb) .fs_npsect
        = max (getf D sb .fs_npsect) (getf D sb .fs_nsect)
      ∧ getf D (get_hypermetadata_geometry D sb) .fs_interleave
        = max (getf D sb .fs_interleave) 1
      ∧ getf D (get_hypermetadata_geometry D sb) .fs_nrpos
        = (if getf D sb .fs_postblformat = D.FS_42POSTBLFMT then 8 else getf D sb .fs_nrpos)
      ∧ getf D (get_hypermetadata_geometry D sb) .fs_nsect = getf D sb .fs_nsect
      ∧ getf D (get_hypermetadata_geometry D sb) .fs_postblformat
        = getf D sb .fs_postblformat := by
  have w8 : CType.wrap .long 8 = 8 := by decide
  have w1 : CType.wrap .long 1 = 1 := by decide
  have wn := wrap_getf D sb .fs_nsect
  simp only [Fld.type] at wn
  refine ⟨?_, ?_, ?_, ?_, ?_⟩
  · by_cases h1 : getf D sb .fs_npsect < getf D sb .fs_nsect <;>
      by_cases h2 : getf D sb .fs_interleave < 1 <;>
      by_cases h3 : getf D sb .fs_postblformat = D.FS_42POSTBLFMT <;>
      simp [get_hypermetadata_geometry, getf_setf hD, h1, h2, h3, Fld.type, wn] <;> omega
  · by_cases h1 : getf D sb .fs_npsect < getf D sb .fs_nsect <;>
      by_cases h2 : getf D sb .fs_interleave < 1 <;>
      by_cases h3 : getf D sb .fs_postblformat = D.FS_42POSTBLFMT <;>
      simp [get_hypermetadata_geometry, getf_setf hD, h1, h2, h3, Fld.type, w1] <;> omega
  · by_cases h1 : getf D sb .fs_npsect < getf D sb .fs_nsect <;>
      by_cases h2 : getf D sb .fs_interleave < 1 <;>
      by_cases h3 : getf D sb .fs_postblformat = D.FS_42POSTBLFMT <;>
      simp [get_hypermetadata_geometry, getf_setf hD, h1, h2, h3, Fld.type, w8]
  · exact geometry_getf_ne hD sb (by decide) (by decide) (by decide)
  · exact geometry_getf_ne hD sb (by decide) (by decide) (by decide)

/-- On a record that already satisfies the three rules they change nothing. -/
theorem geometry_fixed (D : Decls) (sb : Mem)
    (h1 : getf D sb .fs_nsect ≤ getf D sb .fs_npsect) (h2 : 1 ≤ getf D sb .fs_interleave)
    (h3 : getf D sb .fs_postblformat = D.FS_42POSTBLFMT → getf D sb .fs_nrpos = 8) :
    get_hypermetadata_geometry D sb = sb := by
  simp only [get_hypermetadata_geometry, if_neg (not_lt.mpr h1), if_neg (not_lt.mpr h2)]
  by_cases hp : getf D sb .fs_postblformat = D.FS_42POSTBLFMT
  · rw [if_pos hp, ← h3 hp]
    exact setf_getf_self D sb .fs_nrpos
  · rw [if_neg hp]

/-- The members the derivation of lines 112-123 does not assign are, in the
record `get_hypermetadata_oldfs` leaves, as the geometry rules left them. -/
theorem oldfs_getf_geometry {D : Decls} (hD : D.WF) (s : State) {f : Fld}
    (h4 : f ≠ .fs_maxfilesize) (h5 : f ≠ .fs_qbmask) (h6 : f ≠ .fs_qfmask) :
    getf D (get_hypermetadata_oldfs D s).sblock f
      = getf D (get_hypermetadata_geometry D s.sblock) f := by
  simp only [get_hypermetadata_oldfs]
  split_ifs <;> simp only [derive_getf_ne hD _ h4 h5 h6]

/-- C17: when `get_hypermetadata` returns, `fs_npsect` is the larger of the
`fs_npsect` and the `fs_nsect` read from disk, `fs_interleave` the larger of the
`fs_interleave` read from disk and 1, and `fs_nrpos` is 8 if `fs_postblformat`
is `FS_42POSTBLFMT` and the value read from disk otherwise; hence the loaded
record has `fs_npsect >= fs_nsect` and `fs_interleave >= 1`, and applying the
three rules to it once more changes no byte of it. -/
theorem get_hypermetadata_geometry_rules (D : Decls) (hD : D.WF) (s s' : State)
    (h : get_hypermetadata D s = .returned s') :
    getf D s'.sblock .fs_npsect
        = max (getf D (at_offset s.disk_image D.SBOFF) .fs_npsect)
            (getf D (at_offset s.disk_image D.SBOFF) .fs_nsect)
      ∧ getf D s'.sblock .fs_interleave
        = max (getf D (at_offset s.disk_image D.SBOFF) .fs_interleave) 1
      ∧ getf D s'.sblock .fs_nrpos
        = (if getf D (at_offset s.disk_image D.SBOFF) .fs_postblformat = D.FS_42POSTBLFMT
            then 8 else getf D (at_offset s.disk_image D.SBOFF) .fs_nrpos)
      ∧ getf D s'.sblock .fs_nsect ≤ getf D s'.sblock .fs_npsect
      ∧ 1 ≤ getf D s'.sblock .fs_interleave
      ∧ get_hypermetadata_geometry D s'.sblock = s'.sblock := by
  obtain ⟨hsb, -⟩ := get_hypermetadata_returned_state h
  obtain ⟨g1, g2, g3, g4, g5⟩ := geometry_values hD (get_hypermetadata_load D s).sblock
  simp only [load_getf hD] at g1 g2 g3 g4 g5
  have hg : ∀ f : Fld, f ≠ .fs_maxfilesize → f ≠ .fs_qbmask → f ≠ .fs_qfmask →
      getf D s'.sblock f
        = getf D (get_hypermetadata_geometry D (get_hypermetadata_load D s).sblock) f := by
    intro f h4 h5 h6
    rw [hsb, oldfs_getf_geometry hD _ h4 h5 h6]
  have e1 := (hg .fs_npsect (by decide) (by decide) (by decide)).trans g1
  have e2 := (hg .fs_interleave (by decide) (by decide) (by decide)).trans g2
  have e3 := (hg .fs_nrpos (by decide) (by decide) (by decide)).trans g3
  have e4 := (hg .fs_nsect (by decide) (by decide) (by decide)).trans g4
  have e5 := (hg .fs_postblformat (by decide) (by decide) (by decide)).trans g5
  have k1 : getf D s'.sblock .fs_nsect ≤ getf D s'.sblock .fs_npsect := by
    rw [e1, e4]
    exact le_max_right _ _
  have k2 : 1 ≤ getf D s'.sblock .fs_interleave := by
    rw [e2]
    exact le_max_right _ _
  refine ⟨e1, e2, e3, k1, k2, geometry_fixed D _ k1 k2 ?_⟩
  intro hp
  rw [e5] at hp
  rw [e3, if_pos hp]

/-- C17 at the old-format volume with the oldest post-block format, whose
`fs_npsect`, `fs_interleave` and `fs_nrpos` are all zero on disk. -/
theorem get_hypermetadata_geometry_rules_witness :
    get_hypermetadata bsd44 (mk_state old_volume_1k 0 2 2048)
        = .returned (get_hypermetadata bsd44 (mk_state old_volume_1k 0 2 2048)).state
      ∧ getf bsd44 (get_hypermetadata bsd44 (mk_state old_volume_1k 0 2 2048)).state.sblock
          .fs_nsect
        ≤ getf bsd44 (get_hypermetadata bsd44 (mk_state old_volume_1k 0 2 2048)).state.sblock
          .fs_npsect
      ∧ 1 ≤ getf bsd44 (get_hypermetadata bsd44 (mk_state old_volume_1k 0 2 2048)).state.sblock
          .fs_interleave
      ∧ getf bsd44 (get_hypermetadata bsd44 (mk_state old_volume_1k 0 2 2048)).state.sblock
          .fs_nrpos = 8
      ∧ get_hypermetadata_geometry bsd44
          (get_hypermetadata bsd44 (mk_state old_volume_1k 0 2 2048)).state.sblock
        = (get_hypermetadata bsd44 (mk_state old_volume_1k 0 2 2048)).state.sblock := by
  obtain ⟨-, -, -, k1, k2, k3⟩ := get_hypermetadata_geometry_rules bsd44 bsd44_WF
    (mk_state old_volume_1k 0 2 2048) _ rfl
  exact ⟨rfl, k1, k2, by decide, k3⟩

/-! ## The csum read-modify-write (C18) -/

theorem encode_long_lt (v : Int) : CType.encode .long v < 2 ^ 32 := by
  have := CType.encode_lt .long v
  simpa [CType.size] using this

/-- C19 fails on the code: the old-format volume is loaded (`oldformat` becomes
1), converted to the 4.4BSD format and loaded again.  The second
`get_hypermetadata` returns with a record whose `fs_inodefmt` is 2, not below
`FS_44INODEFMT`, yet `oldformat` is still 1, and `copy_sblock` then stores at
`SBOFF` all-ones in `fs_maxfilesize`, `fs_qbmask` and `fs_qfmask` although the
in-core record holds 4402345721855, 4095 and 511. -/
theorem oldformat_survives_reload :
    (get_hypermetadata bsd44 (mk_state old_volume 0 2 2048)).ending = .returned
      ∧ (get_hypermetadata bsd44 (mk_state old_volume 0 2 2048)).state.oldformat = 1
      ∧ (get_hypermetadata bsd44 before_reload).ending = .returned
      ∧ getf bsd44 (get_hypermetadata bsd44 before_reload).state.sblock .fs_inodefmt = 2
      ∧ ¬ getf bsd44 (get_hypermetadata bsd44 before_reload).state.sblock .fs_inodefmt
          < bsd44.FS_44INODEFMT
      ∧ (get_hypermetadata bsd44 before_reload).state.oldformat = 1
      ∧ reloaded_dirty.diskfs_readonly = 0
      ∧ getf bsd44 reloaded_dirty.sblock .fs_maxfilesize = 4402345721855
      ∧ getf bsd44 reloaded_dirty.sblock .fs_qbmask = 4095
      ∧ getf bsd44 reloaded_dirty.sblock .fs_qfmask = 511
      ∧ (copy_sblock bsd44 reloaded_dirty).ending = .returned
      ∧ getf bsd44 (at_offset (copy_sblock bsd44 reloaded_dirty).state.disk_image bsd44.SBOFF)
          .fs_maxfilesize = 2 ^ 64 - 1
      ∧ getf bsd44 (at_offset (copy_sblock bsd44 reloaded_dirty).state.disk_image bsd44.SBOFF)
          .fs_qbmask = -1
      ∧ getf bsd44 (at_offset (copy_sblock bsd44 reloaded_dirty).state.disk_image bsd44.SBOFF)
          .fs_qfmask = -1 := by
  decide

/-! ## The read-only assertion of `copy_sblock` (C20) -/

/-- C20 fails on the code: the clean volume is loaded, made writable, switched
to read-only, and `diskfs_set_hypermetadata (1, 1)` is called.  The first two
calls return, leaving `diskfs_readonly` set, `sblock_dirty` clear and the
in-core clean flag dirty; the third sets the clean flag and `sblock_dirty` and
enters `copy_sblock` with `sblock_dirty` set while `diskfs_readonly` is set, and
the assertion fails. -/
theorem readonly_assertion_reachable :
    (get_hypermetadata bsd44 (mk_state clean_volume 0 2 2048)).ending = .returned
      ∧ (run_calls bsd44 [.mode_change 0, .mode_change 1] clean_loaded).ending = .returned
      ∧ (run_calls bsd44 [.mode_change 0, .mode_change 1] clean_loaded).state.diskfs_readonly = 1
      ∧ (run_calls bsd44 [.mode_change 0, .mode_change 1] clean_loaded).state.sblock_dirty = 0
      ∧ (diskfs_set_hypermetadata_clean bsd44 1 (diskfs_set_hypermetadata_csum bsd44
          (run_calls bsd44 [.mode_change 0, .mode_change 1] clean_loaded).state)).sblock_dirty = 1
      ∧ (diskfs_set_hypermetadata_clean bsd44 1 (diskfs_set_hypermetadata_csum bsd44
          (run_calls bsd44 [.mode_change 0, .mode_change 1] clean_loaded).state)).diskfs_readonly
          = 1
      ∧ (run_calls bsd44 [.mode_change 0, .mode_change 1, .sync 1 1] clean_loaded).ending
          = .assert_failed := by
  decide

end Hyper
